import Mathlib

/-! # ijtiff: the stream-callback layer of `src/common.c`

A shallow embedding of the buffer/file callbacks that `common.c` hands to
the TIFF codec (`TIFFReadProc_`, `TIFFWriteProc_`, `TIFFSeekProc_`,
`TIFFCloseProc_`, `TIFFSizeProc_`), of `guarantee_write_buffer`, of the
session entry points `TIFF_Open` and `cleanup_tiff`, of the handlers
`TIFFErrorHandler_` and `TIFFWarningHandler_`, and of `match_pillar_to_row_3`
from `src/utils.cpp`.

Conventions of the embedding (LP64, libtiff 4):

* `long` and `tsize_t` are 64-bit two's complement integers, modelled as `Int`
  with every arithmetic result wrapped by `wrapLong`;
* `unsigned long`, `size_t` and `toff_t` are modelled as `Nat` modulo `2^64`;
* the heap block behind `rj->data` is a `List Byte` whose length is the size
  of the block; an access outside the block has no defined result and the
  callback then yields `none`, as does a loop that never exits;
* `realloc` is the environment: an `Allocator` says which requests are granted
  and what the bytes of newly obtained memory hold.
-/

namespace Ijtiff

/-! ## Machine integers -/

/-- A byte of a buffer (`char`). -/
abbrev Byte := UInt8

/-- Number of values of an `unsigned long` / `size_t` / `toff_t`: `2^64`. -/
def ULONG_MOD : Nat := 18446744073709551616

/-- Largest `long` / `tsize_t` / `ptrdiff_t`: `2^63 - 1`. -/
def LONG_MAX : Int := 9223372036854775807

/-- Conversion of a signed value to `unsigned long` (reduction modulo `2^64`). -/
def toULong (x : Int) : Nat := (x % 18446744073709551616).toNat

/-- Conversion of an unsigned 64-bit value to `long` (two's complement). -/
def toLong (u : Nat) : Int :=
  if u % 18446744073709551616 < 9223372036854775808 then ((u % 18446744073709551616 : Nat) : Int)
  else ((u % 18446744073709551616 : Nat) : Int) - 18446744073709551616

/-- Result of a `long` computation: the mathematical value wrapped to 64 bits. -/
def wrapLong (x : Int) : Int := toLong (toULong x)

/-- The value is representable as a `long`. -/
def isLong (x : Int) : Prop := -9223372036854775808 ≤ x ∧ x ≤ 9223372036854775807

instance (x : Int) : Decidable (isLong x) := by unfold isLong; infer_instance

/-- The failure value `(toff_t) -1` of the seek callback. -/
def SEEK_FAIL : Nat := 18446744073709551615

/-- The stdio constant `SEEK_SET`. -/
def SEEK_SET : Int := 0
/-- The stdio constant `SEEK_CUR`. -/
def SEEK_CUR : Int := 1
/-- The stdio constant `SEEK_END`. -/
def SEEK_END : Int := 2

/-! ## Memory blocks and the allocator -/

/-- The library call `memcpy(dst + off, src, n)` on the heap block `dst`: defined when the
destination range lies inside the block and `src` holds `n` bytes. -/
def memcpy_to (dst : List Byte) (off : Int) (src : List Byte) (n : Nat) : Option (List Byte) :=
  if 0 ≤ off ∧ off + n ≤ dst.length ∧ n ≤ src.length then
    some (dst.take off.toNat ++ src.take n ++ dst.drop (off.toNat + n))
  else none

/-- The library call `memcpy(buf, src + off, n)` out of the heap block `src`: the bytes
delivered into `buf`, defined when the source range lies inside the block. -/
def memcpy_from (src : List Byte) (off : Int) (n : Nat) : Option (List Byte) :=
  if 0 ≤ off ∧ off + n ≤ src.length then some ((src.drop off.toNat).take n) else none

/-- The library call `memset(dst + off, 0, n)` on the heap block `dst`. -/
def memset_zero (dst : List Byte) (off : Int) (n : Nat) : Option (List Byte) :=
  if 0 ≤ off ∧ off + n ≤ dst.length then
    some (dst.take off.toNat ++ List.replicate n 0 ++ dst.drop (off.toNat + n))
  else none

/-- The environment of `realloc`: which requested sizes are granted, and the
(indeterminate) byte found at each index of newly obtained memory. -/
structure Allocator where
  grants : Nat → Bool
  junk : Nat → Byte

/-- The library call `realloc(block, size)`: `none` is the null result. A granted request keeps
the old bytes up to the smaller of the two sizes; the bytes beyond the old block are whatever
the allocator hands out. No request above `PTRDIFF_MAX` is ever granted. -/
def realloc (A : Allocator) (block : List Byte) (size : Nat) : Option (List Byte) :=
  if size ≤ 9223372036854775807 ∧ A.grants size = true then
    some (block.take size ++ (List.range (size - block.length)).map (fun i => A.junk (block.length + i)))
  else none

/-! ## Files (stdio) -/

/-- A stdio stream on a regular file: the bytes of the file and the stream position. -/
structure FILE where
  bytes : List Byte
  pos : Nat
deriving DecidableEq, Repr

/-- The stdio call `fread(buf, 1, n, f)`: the bytes delivered and the advanced stream. -/
def fread (fl : FILE) (n : Nat) : List Byte × FILE :=
  let got := (fl.bytes.drop fl.pos).take n
  (got, { fl with pos := fl.pos + got.length })

/-- The stdio call `fwrite(buf, 1, n, f)`: overwrites at the position, extending the file (a hole
left by an earlier seek past the end reads as zeros). -/
def fwrite (fl : FILE) (buf : List Byte) (n : Nat) : Nat × FILE :=
  let src := buf.take n
  let padded := fl.bytes ++ List.replicate (fl.pos - fl.bytes.length) 0
  (src.length, { bytes := padded.take fl.pos ++ src ++ padded.drop (fl.pos + src.length),
                 pos := fl.pos + src.length })

/-- The stdio call `ftell` / `ftello`. -/
def ftello (fl : FILE) : Int := fl.pos

/-- The stdio call `fseek` / `fseeko(f, offset, whence)`: status (`0` or `-1`) and the stream.
A negative resulting position or an unknown `whence` is refused. -/
def fseeko (fl : FILE) (offset : Int) (whence : Int) : Int × FILE :=
  let base : Option Int :=
    if whence = SEEK_SET then some 0
    else if whence = SEEK_CUR then some (fl.pos : Int)
    else if whence = SEEK_END then some (fl.bytes.length : Int)
    else none
  match base with
  | none => (-1, fl)
  | some b => if 0 ≤ b + offset then (0, { fl with pos := (b + offset).toNat }) else (-1, fl)

/-! ## The job -/

/-- Modelled from the spec: the struct `tiff_job_t`, declared in `common.h`, which is not among
the sources. Its fields are the spec's StreamJob attributes under the names `common.c` uses:
`f` (file), `ptr` (position), `len` (length), `alloc` (capacity), `data`; the three integers
are `long`, the type in which `guarantee_write_buffer` and `TIFF_Open` handle them.
`f = none` is the null pointer (buffer-backed job); `data` is the heap block. -/
structure tiff_job_t where
  f : Option FILE
  ptr : Int
  len : Int
  alloc : Int
  data : List Byte
deriving DecidableEq, Repr

/-- The callback `TIFFReadProc_(usr, buf, length)`: return value, the bytes copied into `buf`,
and the job afterwards. -/
def TIFFReadProc_ (rj : tiff_job_t) (length : Int) : Option (Int × List Byte × tiff_job_t) :=
  let to_read := length
  match rj.f with
  | some fl =>
    let r := fread fl (toULong to_read)
    some (toLong r.1.length, r.1, { rj with f := some r.2 })
  | none =>
    let to_read := if to_read > wrapLong (rj.len - rj.ptr) then wrapLong (rj.len - rj.ptr) else to_read
    if to_read > 0 then
      match memcpy_from rj.data rj.ptr (toULong to_read) with
      | none => none
      | some bytes => some (to_read, bytes, { rj with ptr := wrapLong (rj.ptr + to_read) })
    else some (to_read, [], rj)

/-- The loop `while (new_alloc <= where) new_alloc <<= 1;` on `unsigned long`. After 64 shifts
the value is `0` and stays there, so 65 tests decide whether the loop exits: `none` is the
loop that never exits. -/
def grow_loop : Nat → Nat → Nat → Option Nat
  | 0, _, _ => none
  | fuel + 1, new_alloc, w =>
    if new_alloc ≤ w then grow_loop fuel ((new_alloc * 2) % 18446744073709551616) w
    else some new_alloc

/-- The function `guarantee_write_buffer(rj, where)`: the `int` result and the job afterwards. -/
def guarantee_write_buffer (A : Allocator) (rj : tiff_job_t) (where_ : Int) :
    Option (Int × tiff_job_t) :=
  if where_ > rj.alloc then
    match grow_loop 65 (toULong rj.alloc) (toULong where_) with
    | none => none
    | some new_alloc =>
      match realloc A rj.data new_alloc with
      | none => some (0, rj)
      | some new_data => some (1, { rj with data := new_data, alloc := toLong new_alloc })
  else some (1, rj)

/-- The callback `TIFFWriteProc_(usr, buf, length)`: return value and the job afterwards. -/
def TIFFWriteProc_ (A : Allocator) (rj : tiff_job_t) (buf : List Byte) (length : Int) :
    Option (Int × tiff_job_t) :=
  match rj.f with
  | some fl =>
    let r := fwrite fl buf (toULong length)
    some (toLong r.1, { rj with f := some r.2 })
  | none =>
    match guarantee_write_buffer A rj (wrapLong (rj.ptr + length)) with
    | none => none
    | some (ok, rj1) =>
      if ok = 0 then some (0, rj1)
      else
        match memcpy_to rj1.data rj1.ptr buf (toULong length) with
        | none => none
        | some d =>
          let rj2 := { rj1 with data := d, ptr := wrapLong (rj1.ptr + length) }
          let rj3 := if rj2.ptr > rj2.len then { rj2 with len := rj2.ptr } else rj2
          some (length, rj3)

/-- What a seek returns: the `toff_t` result, the job afterwards, and the host warnings raised
through `Rf_warning`. -/
structure SeekResult where
  ret : Nat
  job : tiff_job_t
  warnings : List String
deriving DecidableEq, Repr

/-- The callback `TIFFSeekProc_(usr, offset, whence)`; `offset` is a `toff_t`. -/
def TIFFSeekProc_ (A : Allocator) (rj : tiff_job_t) (offset : Nat) (whence : Int) :
    Option SeekResult :=
  match rj.f with
  | some fl =>
    let e := fseeko fl (toLong offset) whence
    if e.1 ≠ 0 then
      some ⟨SEEK_FAIL, { rj with f := some e.2 }, ["fseek failed on a file in TIFFSeekProc"]⟩
    else some ⟨toULong (ftello e.2), { rj with f := some e.2 }, []⟩
  | none =>
    let resolved : Option Nat :=
      if whence = SEEK_CUR then some ((offset + toULong rj.ptr) % 18446744073709551616)
      else if whence = SEEK_END then some ((offset + toULong rj.len) % 18446744073709551616)
      else if whence ≠ SEEK_SET then none
      else some offset
    match resolved with
    | none =>
      some ⟨SEEK_FAIL, rj,
        ["invalid `whence' argument to TIFFSeekProc callback called by libtiff"]⟩
    | some offset =>
      let grown : Option (Option tiff_job_t) :=
        if rj.alloc ≠ 0 ∧ toULong rj.len < offset then
          if offset ≥ toULong rj.alloc then
            match guarantee_write_buffer A rj (toLong offset) with
            | none => none
            | some (ok, rj1) =>
              if ok = 0 then some none else some (some { rj1 with len := toLong offset })
          else
            match memset_zero rj.data rj.len (offset - toULong rj.len) with
            | none => none
            | some d => some (some { rj with data := d, len := toLong offset })
        else some (some rj)
      match grown with
      | none => none
      | some none => some ⟨SEEK_FAIL, rj, []⟩
      | some (some rj2) =>
        if offset > toULong rj2.len then
          some ⟨SEEK_FAIL, rj2, ["libtiff attempted to seek beyond the data end"]⟩
        else
          let rj3 := { rj2 with ptr := toLong offset }
          some ⟨toULong rj3.ptr, rj3, []⟩

/-- The callback `TIFFSizeProc_(usr)`: the result and the job afterwards (the file probe seeks
to the end and back). -/
def TIFFSizeProc_ (rj : tiff_job_t) : Nat × tiff_job_t :=
  match rj.f with
  | some fl =>
    let cur := ftello fl
    let fl1 := (fseeko fl 0 SEEK_END).2
    let end_ := ftello fl1
    let fl2 := (fseeko fl1 cur SEEK_SET).2
    (toULong end_, { rj with f := some fl2 })
  | none => (toULong rj.len, rj)

/-! ## Well-formedness and growth -/

/-- The struct fields hold `long` values and the block is an object of the address space. -/
def tiff_job_t.typed (rj : tiff_job_t) : Prop :=
  isLong rj.ptr ∧ isLong rj.len ∧ isLong rj.alloc ∧ (rj.data.length : Int) ≤ 9223372036854775807

/-- Whether every reallocation that `guarantee_write_buffer(rj, where)` asks for is obtained. -/
def growth_succeeds (A : Allocator) (rj : tiff_job_t) (where_ : Int) : Bool :=
  if where_ > rj.alloc then
    match grow_loop 65 (toULong rj.alloc) (toULong where_) with
    | none => true
    | some new_alloc => (realloc A rj.data new_alloc).isSome
  else true

/-! ## Sequences of calls and sample inputs -/

/-- One call of a write or seek callback, with the allocator that answers it. The seek offset
is the signed value the caller passes; it reaches the callback as a `toff_t`. -/
inductive Call where
  | write (A : Allocator) (buf : List Byte) (length : Int)
  | seek (A : Allocator) (offset : Int) (whence : Int)

/-- The job after one call; `none` when the call has no defined result. -/
def Call.run (c : Call) (rj : tiff_job_t) : Option tiff_job_t :=
  match c with
  | .write A buf length => (TIFFWriteProc_ A rj buf length).map Prod.snd
  | .seek A offset whence => (TIFFSeekProc_ A rj (toULong offset) whence).map SeekResult.job

/-- The jobs observed after each call of a sequence, up to the first call without a defined
result. -/
def trace_calls : tiff_job_t → List Call → List tiff_job_t
  | _, [] => []
  | rj, c :: cs =>
    match c.run rj with
    | none => []
    | some rj' => rj' :: trace_calls rj' cs

/-- The capacity relation of one step: the capacity was multiplied by a power of two and the
length fits the capacity. -/
def grows_to (a b : tiff_job_t) : Prop := (∃ k : Nat, b.alloc = a.alloc * 2 ^ k) ∧ b.len ≤ b.alloc

/-- An allocator that grants every request and hands out memory full of `0xAA`. -/
def alloc_always : Allocator := ⟨fun _ => true, fun _ => 170⟩

/-- An allocator that refuses every request. -/
def alloc_never : Allocator := ⟨fun _ => false, fun _ => 170⟩

/-- The scenario of the spec: on the job `rj`, write `a`, seek to offset 20, write `b`, seek to
offset 0 and read 25 bytes; the result of the read. -/
def sparse_scenario (A : Allocator) (rj : tiff_job_t) (a b : List Byte) :
    Option (Int × List Byte) :=
  match TIFFWriteProc_ A rj a a.length with
  | none => none
  | some (_, rj1) =>
    match TIFFSeekProc_ A rj1 20 SEEK_SET with
    | none => none
    | some s2 =>
      match TIFFWriteProc_ A s2.job b b.length with
      | none => none
      | some (_, rj3) =>
        match TIFFSeekProc_ A rj3 0 SEEK_SET with
        | none => none
        | some s4 =>
          match TIFFReadProc_ s4.job 25 with
          | none => none
          | some (r, bytes, _) => some (r, bytes)

instance (rj : tiff_job_t) : Decidable rj.typed := by unfold tiff_job_t.typed; infer_instance

/-- A sample writable job: capacity 2, length 2, position 1, block 5, 6. -/
def job_small : tiff_job_t := ⟨none, 1, 2, 2, [5, 6]⟩

/-- A sample read-only job (capacity 0) over the bytes 1, 2, 3, at position 2. -/
def job_read_only : tiff_job_t := ⟨none, 2, 3, 0, [1, 2, 3]⟩

/-- A sample sequence of calls: a write that grows the block, a sparse seek, a second write, a
seek with an unknown `whence`, and a seek whose reallocation is refused. -/
def sample_calls : List Call :=
  [Call.write alloc_always [1, 2, 3] 3, Call.seek alloc_always 20 SEEK_SET,
   Call.write alloc_always [4, 5] 2, Call.seek alloc_always 0 7,
   Call.seek alloc_never 1000 SEEK_SET]

/-! ## Sessions: the active handle, `TIFF_Open` and `cleanup_tiff`

The codec library is the environment. A handle (`TIFF *`) is an identity together with the job
bound to it as client data; the job being opened and the job of the active handle are distinct
objects. `TIFFClose` and `TIFFClientOpen` are modelled on the paths where the codec raises no
fatal error (a fatal error leaves through `Rf_error` and the caller never returns). What the
layer does to the outside is recorded, in order, in the session's event log. -/

/-- An observable step of the session layer. -/
inductive Event where
  /-- The handlers were installed by `init_tiff`. -/
  | set_handlers
  /-- The codec's `TIFFClose` was entered on the handle with this identity. -/
  | close (id : Nat)
  /-- The close callback closed the job's file. -/
  | fclose
  /-- The close callback released the job's block. -/
  | free
  /-- The codec's `TIFFClientOpen` was invoked with this mode on this job, and returned the handle
  with this identity (`none`: the null pointer). -/
  | client_open (mode : String) (rj : tiff_job_t) (result : Option Nat)
deriving DecidableEq

/-- A codec handle `TIFF *`: its identity and the job bound to it. -/
structure TIFF where
  id : Nat
  job : tiff_job_t
deriving DecidableEq

/-- The static variables of `common.c` (`need_init`, `err_reenter`, `last_tiff`), the identity
the codec gives to the next handle it creates, and the event log. -/
structure Session where
  need_init : Bool
  err_reenter : Bool
  last_tiff : Option TIFF
  next_id : Nat
  log : List Event

/-- The codec library as environment: whether `TIFFClientOpen` succeeds for a mode and a job,
and the job as the codec's header reads leave it. -/
structure Codec where
  client_open : String → tiff_job_t → Bool × tiff_job_t

/-- The process state at load time: `need_init = 1`, `err_reenter = 0`, `last_tiff = NULL`. -/
def Session.initial : Session := ⟨true, false, none, 1, []⟩

/-- The function `init_tiff()`. -/
def init_tiff (s : Session) : Session :=
  { s with need_init := false, log := s.log ++ [Event.set_handlers] }

/-- The callback `TIFFCloseProc_(usr)`: the `int` result, the job afterwards and the session
afterwards (`last_tiff = 0`). -/
def TIFFCloseProc_ (s : Session) (rj : tiff_job_t) : Int × tiff_job_t × Session :=
  match rj.f with
  | some _ =>
    (0, { rj with f := none }, { s with last_tiff := none, log := s.log ++ [Event.fclose] })
  | none =>
    if rj.alloc ≠ 0 then
      (0, { rj with data := [], alloc := 0 },
        { s with last_tiff := none, log := s.log ++ [Event.free] })
    else (0, rj, { s with last_tiff := none })

/-- The codec call `TIFFClose(tif)`: the close callback runs on the job bound to the handle and
the handle is released. -/
def TIFFClose (s : Session) (t : TIFF) : Session :=
  (TIFFCloseProc_ { s with log := s.log ++ [Event.close t.id] } t.job).2.2

/-- The function `cleanup_tiff()`. -/
def cleanup_tiff (s : Session) : Session :=
  match s.last_tiff with
  | some t => { TIFFClose s t with last_tiff := none }
  | none => s

/-- The codec call `TIFFClientOpen("pkg:ijtiff", mode, rj, ...)`: the handle (or null), the job
afterwards and the session afterwards. -/
def TIFFClientOpen (C : Codec) (s : Session) (mode : String) (rj : tiff_job_t) :
    Option TIFF × tiff_job_t × Session :=
  let r := C.client_open mode rj
  if r.1 = true then
    (some ⟨s.next_id, r.2⟩, r.2,
      { s with next_id := s.next_id + 1,
               log := s.log ++ [Event.client_open mode rj (some s.next_id)] })
  else (none, r.2, { s with log := s.log ++ [Event.client_open mode rj none] })

/-- The function `TIFF_Open(mode, rj)`: the returned handle (or null), the job afterwards and
the session afterwards. The bytes `'I'`, `'M'` are 73 and 77. -/
def TIFF_Open (C : Codec) (s : Session) (mode : String) (rj : tiff_job_t) :
    Option TIFF × tiff_job_t × Session :=
  let s := if s.need_init = true then init_tiff s else s
  let s := match s.last_tiff with
    | some t => { TIFFClose s t with last_tiff := none }
    | none => s
  let checked : Bool × tiff_job_t :=
    match rj.f with
    | some fl =>
      if mode.toList.contains 'r' = true then
        let pos := ftello fl
        let r := fread fl 4
        let magic := r.1
        let read := magic.length
        let fl2 := (fseeko r.2 pos SEEK_SET).2
        if read ≠ 4 ∨
            ¬ ((magic[0]? = some 73 ∧ magic[1]? = some 73 ∧ magic[2]? = some 42 ∧
                  magic[3]? = some 0) ∨
               (magic[0]? = some 77 ∧ magic[1]? = some 77 ∧ magic[2]? = some 0 ∧
                  magic[3]? = some 42)) then
          (false, { rj with f := some fl2 })
        else (true, { rj with f := some fl2 })
      else (true, rj)
    | none => (true, rj)
  if checked.1 = false then (none, checked.2, s)
  else
    let r := TIFFClientOpen C s mode checked.2
    (r.1, r.2.1, { r.2.2 with last_tiff := r.1 })

/-- The handles that are open after an event, given those open before it. -/
def live_after (live : List Nat) : Event → List Nat
  | Event.client_open _ _ (some id) => id :: live
  | Event.close id => live.filter (fun h => h ≠ id)
  | _ => live

/-- The handles opened and not yet closed at the end of a log. -/
def live_handles (log : List Event) : List Nat := log.foldl live_after []

/-- At every moment of the log, starting with the handles `live`, at most one handle is
open. -/
def at_most_one_live : List Nat → List Event → Prop
  | live, [] => live.length ≤ 1
  | live, e :: es => live.length ≤ 1 ∧ at_most_one_live (live_after live e) es

/-- Whether the event is an invocation of `TIFFClientOpen`. -/
def Event.is_client_open : Event → Bool
  | Event.client_open _ _ _ => true
  | _ => false

/-- The log accounts for the active handle: the open handles are exactly the active one, and
there was never more than one. -/
def Session.coherent (s : Session) : Prop :=
  live_handles s.log = (s.last_tiff.map TIFF.id).toList ∧ at_most_one_live [] s.log

/-- A call of the session layer. -/
inductive SessionOp where
  | open_ (mode : String) (rj : tiff_job_t)
  | cleanup

/-- The session after a sequence of `TIFF_Open` and `cleanup_tiff` calls. -/
def run_ops (C : Codec) : Session → List SessionOp → Session
  | s, [] => s
  | s, SessionOp.open_ mode rj :: ops => run_ops C (TIFF_Open C s mode rj).2.2 ops
  | s, SessionOp.cleanup :: ops => run_ops C (cleanup_tiff s) ops

/-- The four bytes at the stream position are one of the two TIFF signatures:
`II` 42 0 or `MM` 0 42. -/
def magic_ok (fl : FILE) : Prop :=
  (fl.bytes.drop fl.pos).take 4 = [73, 73, 42, 0] ∨ (fl.bytes.drop fl.pos).take 4 = [77, 77, 0, 42]

instance (fl : FILE) : Decidable (magic_ok fl) := by unfold magic_ok; infer_instance

/-- The session when `TIFF_Open` reaches the signature check: the handlers are installed and a
previously active handle has been closed. -/
def before_check (s : Session) : Session :=
  let s := if s.need_init = true then init_tiff s else s
  match s.last_tiff with
  | some t => { TIFFClose s t with last_tiff := none }
  | none => s

/-- The log shows exactly the handle `h` (or none) as open, and never more than one. -/
def log_tracks (log : List Event) (h : Option Nat) : Prop :=
  live_handles log = h.toList ∧ at_most_one_live [] log

/-- The signature check of `TIFF_Open` on its own (the block guarded by
`rj->f && strchr(mode, 'r')`): whether the open goes on, and the job afterwards. -/
def signature_check (mode : String) (rj : tiff_job_t) : Bool × tiff_job_t :=
  match rj.f with
  | some fl =>
    if mode.toList.contains 'r' = true then
      if (fread fl 4).1.length ≠ 4 ∨
          ¬ (((fread fl 4).1[0]? = some 73 ∧ (fread fl 4).1[1]? = some 73 ∧
                (fread fl 4).1[2]? = some 42 ∧ (fread fl 4).1[3]? = some 0) ∨
             ((fread fl 4).1[0]? = some 77 ∧ (fread fl 4).1[1]? = some 77 ∧
                (fread fl 4).1[2]? = some 0 ∧ (fread fl 4).1[3]? = some 42)) then
        (false, { rj with f := some (fseeko (fread fl 4).2 (ftello fl) SEEK_SET).2 })
      else (true, { rj with f := some (fseeko (fread fl 4).2 (ftello fl) SEEK_SET).2 })
    else (true, rj)
  | none => (true, rj)

instance at_most_one_live.decidable :
    (live : List Nat) → (log : List Event) → Decidable (at_most_one_live live log)
  | live, [] => inferInstanceAs (Decidable (live.length ≤ 1))
  | live, e :: es =>
    have := at_most_one_live.decidable (live_after live e) es
    inferInstanceAs (Decidable (live.length ≤ 1 ∧ at_most_one_live (live_after live e) es))

instance (s : Session) : Decidable s.coherent := by unfold Session.coherent; infer_instance

/-- A codec whose open always succeeds and leaves the job as it is. -/
def codec_ok : Codec := ⟨fun _ j => (true, j)⟩

/-- A file-backed job on a little-endian TIFF header, stream at the start. -/
def job_tiff_file : tiff_job_t := ⟨some ⟨[73, 73, 42, 0, 8, 0, 0, 0], 0⟩, 0, 0, 0, []⟩

/-- A file-backed job on a file that is not a TIFF (a zip header), stream at the start. -/
def job_zip_file : tiff_job_t := ⟨some ⟨[80, 75, 3, 4, 20, 0], 0⟩, 0, 0, 0, []⟩

/-- A sample sequence of session calls: two opens in a row, an open refused by the signature
check, an open for writing on a buffer, and a cleanup. -/
def sample_ops : List SessionOp :=
  [SessionOp.open_ "rmc" job_tiff_file, SessionOp.open_ "rmc" job_tiff_file,
   SessionOp.open_ "rmc" job_zip_file, SessionOp.open_ "w" job_small, SessionOp.cleanup]

/-- A session in which the handle 1, bound to a TIFF file job, is active. -/
def session_open : Session := (TIFF_Open codec_ok Session.initial "rmc" job_tiff_file).2.2

/-! ## The codec's error and warning handlers -/

/-- The library call `vsnprintf(txtbuf, sizeof(txtbuf), fmt, ap)` on the static 2048-byte
`txtbuf`: of the formatted text, the first 2047 characters are kept. A C string is modelled
as a `String`, one character for each `char`. -/
def vsnprintf_txtbuf (formatted : String) : String := String.mk (formatted.toList.take 2047)

/-- What a call that can leave through `Rf_error` gives: the session afterwards, the host
warnings raised through `Rf_warning`, and the message of the error when the call was left
through `Rf_error` (`none`: the call returned). -/
structure Outcome where
  session : Session
  warnings : List String
  raised : Option String

/-- The codec reporting a list of errors (module and formatted text), one after the other,
through the installed error handler; a handler that leaves through `Rf_error` ends the
reporting. -/
def report_errors (handler : Session → String → String → Option Outcome) :
    List (String × String) → Session → Option Outcome
  | [], s => some ⟨s, [], none⟩
  | e :: rest, s =>
    match handler s e.1 e.2 with
    | none => none
    | some o =>
      if o.raised.isSome = true then some o
      else
        match report_errors handler rest o.session with
        | none => none
        | some o2 => some { o2 with warnings := o.warnings ++ o2.warnings }

/-- The codec call `TIFFClose(tif)` on a path where the codec reports the errors `errs` before
it runs the close callback ("TIFF is happy to call another error from Close"). A handler that
leaves through `Rf_error` abandons the close. -/
def TIFFClose_reporting (handler : Session → String → String → Option Outcome)
    (errs : List (String × String)) (s : Session) (t : TIFF) : Option Outcome :=
  match report_errors handler errs { s with log := s.log ++ [Event.close t.id] } with
  | none => none
  | some o =>
    if o.raised.isSome = true then some o
    else some { o with session := (TIFFCloseProc_ o.session t.job).2.2 }

/-- The handler `TIFFErrorHandler_(module, fmt, ap)`; `formatted` is the text `fmt` and `ap`
format to, and `close_errors` the errors the codec reports while it closes a handle. The
handler and the codec's close call each other, so the definition carries the depth of nesting
it may use: `none` is a nesting deeper than that. -/
def TIFFErrorHandler_ (close_errors : TIFF → List (String × String)) :
    Nat → Session → String → String → Option Outcome
  | 0, _, _, _ => none
  | depth + 1, s, module, formatted =>
    if s.err_reenter = true then some ⟨s, [], none⟩
    else
      let s1 := { s with err_reenter := true }
      let txtbuf := vsnprintf_txtbuf formatted
      let w := "The tiff file you are attempting to read from is causing the " ++
        "following problem: \"" ++ module ++ ": " ++ txtbuf ++ "\""
      let closed : Option Outcome :=
        match s1.last_tiff with
        | some t => TIFFClose_reporting (TIFFErrorHandler_ close_errors depth) (close_errors t) s1 t
        | none => some ⟨s1, [], none⟩
      match closed with
      | none => none
      | some o =>
        if o.raised.isSome = true then some { o with warnings := w :: o.warnings }
        else
          some ⟨{ o.session with err_reenter := false }, w :: o.warnings,
            some (module ++ ": " ++ txtbuf)⟩

/-- A codec that reports two errors of its own whenever it closes a handle. -/
def noisy_close : TIFF → List (String × String) :=
  fun _ => [("TIFFFlush", "write error"), ("TIFFClose", "cannot flush")]

/-- The library test `strstr(haystack, needle) != NULL`: whether `needle` occurs in
`haystack`. -/
def strstr_found : List Char → List Char → Bool
  | [], needle => needle.isEmpty
  | c :: cs, needle => needle.isPrefixOf (c :: cs) || strstr_found cs needle

/-- The handler `TIFFWarningHandler_(module, fmt, ap)`; `formatted` is the text `fmt` and `ap`
format to. The result is the warning raised through `Rf_warning`, if any. -/
def TIFFWarningHandler_ (module formatted : String) : Option String :=
  let txtbuf := vsnprintf_txtbuf formatted
  if strstr_found txtbuf.toList "Unknown field with tag".toList = false ∧
      strstr_found txtbuf.toList "Defining non-color channels as ExtraSamples.".toList = false then
    some (module ++ ": " ++ txtbuf)
  else none

/-- A warning text of 2048 characters: 2047 times `a`, then `b`. -/
def long_warning : String := String.mk (List.replicate 2047 'a' ++ ['b'])

/-! ## `utils.cpp`: `match_pillar_to_row_3`

R integers are `int` values held in vectors; an element access outside a vector has no defined
result (`none`), as has a loop counter `int i` that would have to pass `INT_MAX`. -/

/-- The R constant `NA_INTEGER` (`INT_MIN`). -/
def NA_INTEGER : Int := -2147483648

/-- An Rcpp `IntegerVector` with its `dim` attribute. -/
structure IntegerVector where
  dim : List Nat
  data : List Int

/-- An Rcpp `IntegerMatrix`: the entries in column-major order. -/
structure IntegerMatrix where
  nrow : Nat
  ncol : Nat
  data : List Int

/-- The element access `mat(j, c)` of an `IntegerMatrix`. -/
def IntegerMatrix.elem (mat : IntegerMatrix) (j c : Nat) : Option Int :=
  mat.data[j + c * mat.nrow]?

/-- The comparison `a == b` of two elements read from vectors. -/
def elem_eq (a b : Option Int) : Option Bool :=
  match a, b with
  | some x, some y => some (x == y)
  | _, _ => none

/-- The operator `p && q` with its short circuit: `q` is only read when `p` holds. -/
def and_then (p q : Option Bool) : Option Bool :=
  match p with
  | none => none
  | some false => some false
  | some true => q

/-- The inner loop `for (int j = 0; j != mat.nrow(); ++j)` of `match_pillar_to_row_3` for the
pillar `i`, from row `j` on with `remaining` rows to go: the row found (`found = true`,
`out[i] = j`, `break`), or `some none` when the loop ends with `found = false`. -/
def find_row (arr3d : List Int) (mat : IntegerMatrix) (out_len i : Nat) :
    Nat → Nat → Option (Option Nat)
  | 0, _ => some none
  | remaining + 1, j =>
    match and_then (elem_eq arr3d[i]? (mat.elem j 0))
        (and_then (elem_eq arr3d[i + out_len]? (mat.elem j 1))
          (elem_eq arr3d[i + 2 * out_len]? (mat.elem j 2))) with
    | none => none
    | some true => some (some j)
    | some false => find_row arr3d mat out_len i remaining (j + 1)

/-- The outer loop `for (int i = 0; i != out_len; ++i)` from pillar `i` on with `remaining`
pillars to go: the entries `out[i], out[i + 1], ...` it writes. -/
def fill_out (arr3d : List Int) (mat : IntegerMatrix) (out_len : Nat) :
    Nat → Nat → Option (List Int)
  | 0, _ => some []
  | remaining + 1, i =>
    match find_row arr3d mat out_len i mat.nrow 0 with
    | none => none
    | some found =>
      match fill_out arr3d mat out_len remaining (i + 1) with
      | none => none
      | some rest =>
        some ((match found with
          | some j => (j : Int)
          | none => NA_INTEGER) :: rest)

/-- The function `match_pillar_to_row_3(arr3d, mat)`. -/
def match_pillar_to_row_3 (arr3d : IntegerVector) (mat : IntegerMatrix) : Option IntegerMatrix :=
  match arr3d.dim[0]?, arr3d.dim[1]? with
  | some d0, some d1 =>
    let out_len := d0 * d1
    if out_len > 2147483647 then none
    else
      match fill_out arr3d.data mat out_len out_len 0 with
      | none => none
      | some out => some ⟨d0, d1, out⟩
  | _, _ => none

/-- Row `j` of `mat` carries the three values of pillar `i` of the array. -/
def row_matches (arr3d : List Int) (mat : IntegerMatrix) (out_len i j : Nat) : Prop :=
  arr3d[i]? = mat.elem j 0 ∧ arr3d[i + out_len]? = mat.elem j 1 ∧
    arr3d[i + 2 * out_len]? = mat.elem j 2

instance (arr3d : List Int) (mat : IntegerMatrix) (out_len i j : Nat) :
    Decidable (row_matches arr3d mat out_len i j) := by unfold row_matches; infer_instance

/-- A sample array of dimensions 2 x 1 x 3 with the pillars (1, 2, 3) and (7, 8, 9). -/
def sample_arr : IntegerVector := ⟨[2, 1, 3], [1, 7, 2, 8, 3, 9]⟩

/-- A sample matrix with the rows (4, 5, 6), (1, 2, 3), (1, 2, 3). -/
def sample_mat : IntegerMatrix := ⟨3, 3, [4, 1, 1, 5, 2, 2, 6, 3, 3]⟩

/-! # Lemmas and claims -/

/-! ## Machine integers, the allocator and the growth loop -/

theorem wrapLong_of_isLong {x : Int} (h : isLong x) : wrapLong x = x := by
  unfold wrapLong toLong toULong; unfold isLong at h; omega

theorem toULong_of_nonneg {x : Int} (h0 : 0 ≤ x) (h : isLong x) : toULong x = x.toNat := by
  unfold toULong; unfold isLong at h; omega

theorem toULong_natCast {n : Nat} (h : (n : Int) ≤ 9223372036854775807) : toULong (n : Int) = n := by
  unfold toULong; omega

theorem toLong_of_lt {u : Nat} (h : u < 9223372036854775808) : toLong u = u := by
  unfold toLong; omega

theorem grow_loop_of_gt (fuel a w : Nat) (h : w < a) : grow_loop (fuel + 1) a w = some a := by
  simp [grow_loop]; omega

theorem grow_loop_spec (fuel : Nat) : ∀ a w : Nat, 1 ≤ a → w < 9223372036854775808 →
    w < a * 2 ^ fuel →
    ∃ k, k ≤ fuel ∧ grow_loop (fuel + 1) a w = some (a * 2 ^ k) ∧ w < a * 2 ^ k ∧
      ∀ j, j < k → a * 2 ^ j ≤ w := by
  induction fuel with
  | zero =>
    intro a w _ _ h
    refine ⟨0, le_refl _, ?_, by simpa using h, by simp⟩
    simp at h
    simp [grow_loop]; omega
  | succ n ih =>
    intro a w ha hw h
    by_cases hle : a ≤ w
    · have hmod : (a * 2) % 18446744073709551616 = a * 2 := by omega
      have h2 : w < (a * 2) * 2 ^ n := by rw [pow_succ] at h; nlinarith
      obtain ⟨k, hk, hg, hlt, hall⟩ := ih (a * 2) w (by omega) hw h2
      refine ⟨k + 1, by omega, ?_, ?_, ?_⟩
      · rw [grow_loop]; simp only [hle, if_true, hmod]; rw [hg, pow_succ]; congr 1; ring
      · rw [pow_succ]; calc w < a * 2 * 2 ^ k := hlt
          _ = a * (2 ^ k * 2) := by ring
      · intro j hj
        cases j with
        | zero => simpa using hle
        | succ j => 
          have := hall j (by omega)
          rw [pow_succ]; calc a * (2 ^ j * 2) = a * 2 * 2 ^ j := by ring
            _ ≤ w := this
    · refine ⟨0, by omega, ?_, by simpa using Nat.lt_of_not_le hle, by simp⟩
      rw [grow_loop]; simp [hle]

theorem realloc_length {A : Allocator} {block d : List Byte} {size : Nat}
    (h : realloc A block size = some d) : d.length = size ∧ size ≤ 9223372036854775807 := by
  unfold realloc at h
  split at h
  · rename_i hc
    simp only [Option.some.injEq] at h
    subst h
    simp only [List.length_append, List.length_take, List.length_map, List.length_range]
    omega
  · simp at h

theorem realloc_take {A : Allocator} {block d : List Byte} {size : Nat}
    (h : realloc A block size = some d) (hle : block.length ≤ size) :
    d.take block.length = block := by
  unfold realloc at h
  split at h
  · simp only [Option.some.injEq] at h
    subst h
    rw [List.take_of_length_le hle, List.take_left']
    rfl
  · simp at h

theorem guarantee_write_buffer_no_growth (A : Allocator) (rj : tiff_job_t) (w : Int)
    (h : w ≤ rj.alloc) : guarantee_write_buffer A rj w = some (1, rj) := by
  unfold guarantee_write_buffer
  simp [not_lt.mpr h]

theorem guarantee_write_buffer_grows (A : Allocator) (rj : tiff_job_t) (w : Int)
    (hcap : 1 ≤ rj.alloc) (hal : isLong rj.alloc) (hw : isLong w) (h : rj.alloc < w) :
    ∃ k, 1 ≤ k ∧ grow_loop 65 (toULong rj.alloc) (toULong w) = some (rj.alloc.toNat * 2 ^ k) ∧
      w < ((rj.alloc.toNat * 2 ^ k : Nat) : Int) ∧
      (∀ j, j < k → ((rj.alloc.toNat * 2 ^ j : Nat) : Int) ≤ w) ∧
      ((guarantee_write_buffer A rj w = some (0, rj) ∧
          realloc A rj.data (rj.alloc.toNat * 2 ^ k) = none) ∨
        ∃ d, realloc A rj.data (rj.alloc.toNat * 2 ^ k) = some d ∧
          guarantee_write_buffer A rj w =
            some (1, { rj with data := d, alloc := ((rj.alloc.toNat * 2 ^ k : Nat) : Int) })) := by
  have ha : toULong rj.alloc = rj.alloc.toNat := toULong_of_nonneg (by omega) hal
  have hwn : toULong w = w.toNat := toULong_of_nonneg (by omega) hw
  have hw' : w.toNat < 9223372036854775808 := by unfold isLong at hw; omega
  obtain ⟨k, hk, hg, hlt, hall⟩ := grow_loop_spec 64 rj.alloc.toNat w.toNat (by omega) hw'
    (by omega)
  have hk1 : 1 ≤ k := by
    rcases Nat.eq_zero_or_pos k with h0 | h0
    · subst h0; simp at hlt; omega
    · exact h0
  refine ⟨k, hk1, by rw [ha, hwn]; exact hg, by omega, ?_, ?_⟩
  · intro j hj; have := hall j hj; omega
  · unfold guarantee_write_buffer
    simp only [gt_iff_lt, h, if_true, ha, hwn, hg]
    cases hr : realloc A rj.data (rj.alloc.toNat * 2 ^ k) with
    | none => left; simp
    | some d =>
      right
      refine ⟨d, rfl, ?_⟩
      have := (realloc_length hr).2
      simp only [Option.some.injEq, Prod.mk.injEq, true_and]
      rw [toLong_of_lt (by omega)]

/-! ## The callbacks on a buffer-backed job -/

theorem guarantee_write_buffer_ok (A : Allocator) (rj : tiff_job_t) (w : Int)
    (hcap : 1 ≤ rj.alloc) (hal : isLong rj.alloc) (hw : isLong w)
    (hblock : (rj.data.length : Int) = rj.alloc)
    (hgrow : growth_succeeds A rj w = true) :
    ∃ rj1, guarantee_write_buffer A rj w = some (1, rj1) ∧ rj1.f = rj.f ∧ rj1.ptr = rj.ptr ∧
      rj1.len = rj.len ∧ w ≤ rj1.alloc ∧ isLong rj1.alloc ∧
      (rj1.data.length : Int) = rj1.alloc ∧ rj1.data.take rj.data.length = rj.data ∧
      (∃ k : Nat, rj1.alloc = rj.alloc * 2 ^ k) ∧ (w ≤ rj.alloc → rj1 = rj) := by
  by_cases h : w ≤ rj.alloc
  · refine ⟨rj, guarantee_write_buffer_no_growth A rj w h, rfl, rfl, rfl, h, hal, hblock, ?_,
      ⟨0, by simp⟩, fun _ => rfl⟩
    simp
  · have hlt : rj.alloc < w := by omega
    obtain ⟨k, _, hg, hwlt, _, hres⟩ := guarantee_write_buffer_grows A rj w hcap hal hw hlt
    have hsome : (realloc A rj.data (rj.alloc.toNat * 2 ^ k)).isSome = true := by
      unfold growth_succeeds at hgrow
      simpa [hlt, hg] using hgrow
    rcases hres with ⟨_, hnone⟩ | ⟨d, hd, hgw⟩
    · rw [hnone] at hsome; simp at hsome
    · have hlen := realloc_length hd
      have hge : rj.data.length ≤ rj.alloc.toNat * 2 ^ k := by
        have : 1 ≤ 2 ^ k := Nat.one_le_two_pow
        have : rj.alloc.toNat * 1 ≤ rj.alloc.toNat * 2 ^ k := Nat.mul_le_mul_left _ this
        omega
      refine ⟨_, hgw, rfl, rfl, rfl, ?_, ?_, ?_, ?_, ⟨k, ?_⟩, fun h' => absurd h' h⟩
      · show w ≤ ((rj.alloc.toNat * 2 ^ k : Nat) : Int)
        omega
      · show isLong ((rj.alloc.toNat * 2 ^ k : Nat) : Int)
        unfold isLong; omega
      · show (d.length : Int) = ((rj.alloc.toNat * 2 ^ k : Nat) : Int)
        rw [hlen.1]
      · exact realloc_take hd hge
      · show ((rj.alloc.toNat * 2 ^ k : Nat) : Int) = rj.alloc * 2 ^ k
        push_cast
        rw [Int.toNat_of_nonneg (by omega)]

theorem getElem?_of_take_eq {d1 d : List Byte} (h : d1.take d.length = d) (i : Nat)
    (hi : i < d.length) : d1[i]? = d[i]? := by
  conv_rhs => rw [← h]
  rw [List.getElem?_take_of_lt hi]

theorem TIFFWriteProc_spec (A : Allocator) (rj : tiff_job_t) (b : List Byte)
    (hty : rj.typed) (hf : rj.f = none) (h0 : 0 ≤ rj.ptr) (hcap : 1 ≤ rj.alloc)
    (hblock : (rj.data.length : Int) = rj.alloc)
    (hsum : rj.ptr + b.length ≤ 9223372036854775807)
    (hgrow : growth_succeeds A rj (rj.ptr + b.length) = true) :
    ∃ rj', TIFFWriteProc_ A rj b b.length = some ((b.length : Int), rj') ∧
      rj'.f = none ∧ rj'.ptr = rj.ptr + b.length ∧ rj'.len = max rj.len (rj.ptr + b.length) ∧
      rj.ptr + b.length ≤ rj'.alloc ∧ isLong rj'.alloc ∧
      (rj'.data.length : Int) = rj'.alloc ∧ (∃ k : Nat, rj'.alloc = rj.alloc * 2 ^ k) ∧
      (rj'.data.drop rj.ptr.toNat).take b.length = b ∧
      (∀ i : Nat, i < rj.data.length → ((i : Int) < rj.ptr ∨ rj.ptr + b.length ≤ i) →
        rj'.data[i]? = rj.data[i]?) ∧
      (rj.ptr + b.length ≤ rj.alloc → rj'.alloc = rj.alloc ∧ rj'.data.length = rj.data.length) := by
  obtain ⟨hp, hl, ha, hd⟩ := hty
  have hwl : isLong (rj.ptr + b.length) := by unfold isLong at *; omega
  obtain ⟨rj1, hg, hf1, hp1, hl1, hw1, hal1, hb1, htk, hk, hsame⟩ :=
    guarantee_write_buffer_ok A rj (rj.ptr + b.length) hcap ha hwl hblock hgrow
  have hn : toULong (b.length : Int) = b.length := toULong_natCast (by omega)
  have hcond : 0 ≤ rj1.ptr ∧ rj1.ptr + (b.length : Int) ≤ (rj1.data.length : Int) ∧
      b.length ≤ b.length := ⟨by omega, by omega, le_refl _⟩
  have hpl : rj.ptr.toNat ≤ rj1.data.length := by omega
  have hlenle : rj.data.length ≤ rj1.data.length := by
    have := congrArg List.length htk
    simp only [List.length_take] at this
    omega
  obtain ⟨f1, p1, l1, a1, d1⟩ := rj1
  simp only at hf1 hp1 hl1 hw1 hal1 hb1 htk hk hsame hcond hpl hlenle
  subst hp1 hl1
  rw [hf] at hf1
  subst hf1
  have hlen' : (d1.take rj.ptr.toNat ++ b ++ d1.drop (rj.ptr.toNat + b.length)).length = d1.length := by
    simp only [List.length_append, List.length_take, List.length_drop]; omega
  refine ⟨⟨none, rj.ptr + b.length, max rj.len (rj.ptr + b.length), a1,
    d1.take rj.ptr.toNat ++ b ++ d1.drop (rj.ptr.toNat + b.length)⟩, ?_, rfl, rfl, rfl, hw1, hal1, ?_,
    hk, ?_, ?_, ?_⟩
  · unfold TIFFWriteProc_
    simp only [hf, wrapLong_of_isLong hwl, hg, hn, memcpy_to, hcond, and_self, if_true,
      one_ne_zero, if_false, List.take_length]
    by_cases hgt : rj.ptr + (b.length : Int) > rj.len
    · simp only [hgt, if_true, max_eq_right (le_of_lt hgt)]
    · simp only [hgt, if_false, max_eq_left (not_lt.mp hgt)]
  · show ((d1.take rj.ptr.toNat ++ b ++ d1.drop (rj.ptr.toNat + b.length)).length : Int) = a1
    rw [hlen', hb1]
  · show ((d1.take rj.ptr.toNat ++ b ++ d1.drop (rj.ptr.toNat + b.length)).drop rj.ptr.toNat).take b.length = b
    rw [List.append_assoc, List.drop_left' (by simp; omega), List.take_left' rfl]
  · intro i hi hout
    show (d1.take rj.ptr.toNat ++ b ++ d1.drop (rj.ptr.toNat + b.length))[i]? = rj.data[i]?
    rw [← getElem?_of_take_eq htk i hi]
    rcases hout with hlt | hge
    · have hi' : i < rj.ptr.toNat := by omega
      rw [List.append_assoc, List.getElem?_append_left (by simp; omega),
        List.getElem?_take_of_lt hi']
    · have hi' : rj.ptr.toNat + b.length ≤ i := by omega
      rw [List.getElem?_append_right (by simp; omega), List.getElem?_drop]
      congr 1
      simp only [List.length_append, List.length_take]
      omega
  · intro hle
    have := hsame hle
    rw [← this]
    exact ⟨rfl, hlen'⟩

theorem TIFFSeekProc_cur (A : Allocator) (rj : tiff_job_t) (offset : Nat) (hf : rj.f = none) :
    TIFFSeekProc_ A rj offset SEEK_CUR =
      TIFFSeekProc_ A rj ((offset + toULong rj.ptr) % 18446744073709551616) SEEK_SET := by
  unfold TIFFSeekProc_
  simp [hf, SEEK_CUR, SEEK_SET, SEEK_END]

theorem TIFFSeekProc_end (A : Allocator) (rj : tiff_job_t) (offset : Nat) (hf : rj.f = none) :
    TIFFSeekProc_ A rj offset SEEK_END =
      TIFFSeekProc_ A rj ((offset + toULong rj.len) % 18446744073709551616) SEEK_SET := by
  unfold TIFFSeekProc_
  simp [hf, SEEK_CUR, SEEK_SET, SEEK_END]

/-- A seek to a target inside the data only moves the position. -/
theorem TIFFSeekProc_set_within (A : Allocator) (rj : tiff_job_t) (o : Nat) (hf : rj.f = none)
    (hl : isLong rj.len) (h0 : 0 ≤ rj.len) (ho : (o : Int) ≤ rj.len) :
    TIFFSeekProc_ A rj o SEEK_SET = some ⟨o, { rj with ptr := o }, []⟩ := by
  have hlu : toULong rj.len = rj.len.toNat := toULong_of_nonneg h0 hl
  have ho' : o < 9223372036854775808 := by unfold isLong at hl; omega
  have h1 : ¬ (toULong rj.len < o) := by rw [hlu]; omega
  have h2 : ¬ (o > toULong rj.len) := by rw [hlu]; omega
  unfold TIFFSeekProc_
  simp only [hf, SEEK_SET, SEEK_CUR, SEEK_END, Int.reduceEq, Int.reduceNe, ↓reduceIte, ne_eq,
    not_true_eq_false]
  simp only [h1, and_false, if_false, h2, toLong_of_lt ho', ↓reduceIte]
  rw [toULong_natCast (by omega), hf]

/-- A seek past the data strictly inside the capacity zero-fills the gap. -/
theorem TIFFSeekProc_set_zero_fill (A : Allocator) (rj : tiff_job_t) (o : Nat)
    (hf : rj.f = none) (hl : isLong rj.len) (ha : isLong rj.alloc) (h0 : 0 ≤ rj.len)
    (hblock : (rj.data.length : Int) = rj.alloc) (hlo : rj.len < o) (hoa : (o : Int) < rj.alloc) :
    TIFFSeekProc_ A rj o SEEK_SET =
      some ⟨o, { rj with
        data := rj.data.take rj.len.toNat ++ List.replicate (o - rj.len.toNat) 0 ++ rj.data.drop o,
        len := o, ptr := o }, []⟩ := by
  have hlu : toULong rj.len = rj.len.toNat := toULong_of_nonneg h0 hl
  have hau : toULong rj.alloc = rj.alloc.toNat := toULong_of_nonneg (by omega) ha
  have ho' : o < 9223372036854775808 := by unfold isLong at ha; omega
  have hou : toULong (o : Int) = o := toULong_natCast (by omega)
  have h1 : ¬ rj.alloc = 0 ∧ toULong rj.len < o := ⟨by omega, by rw [hlu]; omega⟩
  have h2 : ¬ (o ≥ toULong rj.alloc) := by rw [hau]; omega
  have h5 : ¬ (o > o) := by omega
  have h3 : 0 ≤ rj.len ∧ rj.len + ((o - rj.len.toNat : Nat) : Int) ≤ (rj.data.length : Int) :=
    ⟨h0, by omega⟩
  have h4 : rj.len.toNat + (o - rj.len.toNat) = o := by omega
  unfold TIFFSeekProc_
  simp only [hf, SEEK_SET, SEEK_CUR, SEEK_END, Int.reduceEq, Int.reduceNe, ↓reduceIte, ne_eq,
    not_true_eq_false]
  simp only [h1, and_self, if_true, h2, if_false, ↓reduceIte, not_false_eq_true]
  simp only [hlu, memset_zero, h3, and_self, if_true, toLong_of_lt ho', h4, hou, h5, if_false,
    ↓reduceIte, List.append_assoc]

/-- A seek to or past the capacity goes through `guarantee_write_buffer` and writes no byte. -/
theorem TIFFSeekProc_set_grow (A : Allocator) (rj : tiff_job_t) (o : Nat)
    (hf : rj.f = none) (hl : isLong rj.len) (ha : isLong rj.alloc) (h0 : 0 ≤ rj.len)
    (hcap : 1 ≤ rj.alloc) (hlo : rj.len < o) (hao : rj.alloc ≤ (o : Int))
    (ho : (o : Int) ≤ 9223372036854775807) (rj1 : tiff_job_t)
    (hg : guarantee_write_buffer A rj o = some (1, rj1)) :
    TIFFSeekProc_ A rj o SEEK_SET = some ⟨o, { rj1 with len := o, ptr := o }, []⟩ := by
  have hlu : toULong rj.len = rj.len.toNat := toULong_of_nonneg h0 hl
  have hau : toULong rj.alloc = rj.alloc.toNat := toULong_of_nonneg (by omega) ha
  have hou : toULong (o : Int) = o := toULong_natCast ho
  have h1 : ¬ rj.alloc = 0 ∧ toULong rj.len < o := ⟨by omega, by rw [hlu]; omega⟩
  have h2 : o ≥ toULong rj.alloc := by rw [hau]; omega
  have h5 : ¬ (o > o) := by omega
  unfold TIFFSeekProc_
  simp only [hf, SEEK_SET, SEEK_CUR, SEEK_END, Int.reduceEq, Int.reduceNe, ↓reduceIte, ne_eq,
    not_true_eq_false]
  simp only [h1, and_self, if_true, h2, ↓reduceIte, not_false_eq_true,
    toLong_of_lt (show o < 9223372036854775808 by omega), hg, one_ne_zero, hou, h5, if_false]

/-- A read whose source range lies inside the block. -/
theorem TIFFReadProc_spec (rj : tiff_job_t) (n : Int) (hty : rj.typed) (hf : rj.f = none)
    (h0 : 0 ≤ rj.ptr) (h1 : rj.ptr ≤ rj.len)
    (hblock : rj.ptr + min n (rj.len - rj.ptr) ≤ rj.data.length)
    (hn0 : 0 ≤ n) (hn : isLong n) :
    TIFFReadProc_ rj n = some (min n (rj.len - rj.ptr),
      (rj.data.drop rj.ptr.toNat).take (min n (rj.len - rj.ptr)).toNat,
      { rj with ptr := rj.ptr + min n (rj.len - rj.ptr) }) := by
  obtain ⟨hp, hl, ha, hd⟩ := hty
  have hsub : isLong (rj.len - rj.ptr) := by unfold isLong at *; omega
  unfold TIFFReadProc_
  simp only [hf, wrapLong_of_isLong hsub]
  by_cases hgt : n > rj.len - rj.ptr
  · simp only [hgt, if_true, min_eq_right (le_of_lt hgt)] at hblock ⊢
    by_cases hpos : rj.len - rj.ptr > 0
    · have hu : toULong (rj.len - rj.ptr) = (rj.len - rj.ptr).toNat :=
        toULong_of_nonneg (by omega) hsub
      have hc : 0 ≤ rj.ptr ∧ rj.ptr + (((rj.len - rj.ptr).toNat : Nat) : Int) ≤ rj.data.length :=
        ⟨h0, by omega⟩
      have hw : isLong (rj.ptr + (rj.len - rj.ptr)) := by unfold isLong at *; omega
      simp only [hpos, if_true, memcpy_from, hu, hc, and_self, wrapLong_of_isLong hw]
    · have hz : rj.len - rj.ptr = 0 := by omega
      simp only [hz, gt_iff_lt, lt_self_iff_false, if_false, Int.toNat_zero, List.take_zero,
        add_zero]
      obtain ⟨f, p, l, a, d⟩ := rj
      simp only at hf
      subst hf
      rfl
  · simp only [hgt, if_false, min_eq_left (not_lt.mp hgt)] at hblock ⊢
    by_cases hpos : n > 0
    · have hu : toULong n = n.toNat := toULong_of_nonneg hn0 hn
      have hc : 0 ≤ rj.ptr ∧ rj.ptr + ((n.toNat : Nat) : Int) ≤ rj.data.length :=
        ⟨h0, by omega⟩
      have hw : isLong (rj.ptr + n) := by unfold isLong at *; omega
      simp only [hpos, if_true, memcpy_from, hu, hc, and_self, wrapLong_of_isLong hw]
    · have hz : n = 0 := by omega
      simp only [hz, gt_iff_lt, lt_self_iff_false, if_false, Int.toNat_zero, List.take_zero,
        add_zero]
      obtain ⟨f, p, l, a, d⟩ := rj
      simp only at hf
      subst hf
      rfl

/-- A write of no bytes at a position inside the data and the block changes nothing. -/
theorem TIFFWriteProc_nil (A : Allocator) (rj : tiff_job_t) (hty : rj.typed) (hf : rj.f = none)
    (h0 : 0 ≤ rj.ptr) (h1 : rj.ptr ≤ rj.len) (h2 : rj.ptr ≤ rj.alloc)
    (hblock : rj.ptr ≤ rj.data.length) :
    TIFFWriteProc_ A rj [] 0 = some (0, rj) := by
  obtain ⟨hp, hl, ha, hd⟩ := hty
  have hg := guarantee_write_buffer_no_growth A rj rj.ptr h2
  have hc : 0 ≤ rj.ptr ∧ rj.ptr + ((0 : Nat) : Int) ≤ (rj.data.length : Int) ∧ 0 ≤ 0 :=
    ⟨h0, by omega, le_refl _⟩
  have hu : toULong 0 = 0 := by unfold toULong; omega
  have hng : ¬ (rj.ptr > rj.len) := by omega
  unfold TIFFWriteProc_
  simp only [hf, add_zero, wrapLong_of_isLong hp, hg, one_ne_zero, if_false, hu, memcpy_to,
    List.length_nil, hc, and_self, if_true, List.take_nil, List.append_nil, hng,
    List.take_append_drop]
  obtain ⟨f, p, l, a, d⟩ := rj
  simp only at hf
  subst hf
  rfl

/-! ## The claims -/

/-- C1: on a buffer-backed job at position 0 with capacity at least 1, when every needed
reallocation succeeds, writing the byte sequence `b` returns its length `N`, and after a seek to
0 from the start a read of `N` bytes returns `N` and delivers exactly `b`. -/
theorem round_trip_buffer (A : Allocator) (rj : tiff_job_t) (b : List Byte)
    (hty : rj.typed) (hf : rj.f = none) (hcap : 1 ≤ rj.alloc)
    (hblock : (rj.data.length : Int) = rj.alloc) (hpos : rj.ptr = 0)
    (hN : (b.length : Int) ≤ 9223372036854775807)
    (hgrow : growth_succeeds A rj b.length = true) :
    ∃ rj1 rj2 rj3, TIFFWriteProc_ A rj b b.length = some ((b.length : Int), rj1) ∧
      TIFFSeekProc_ A rj1 0 SEEK_SET = some ⟨0, rj2, []⟩ ∧
      TIFFReadProc_ rj2 b.length = some ((b.length : Int), b, rj3) := by
  have hl := hty.2.1
  obtain ⟨rj1, hw, hf1, hp1, hl1, hcap1, hal1, hb1, _, hdata, _, _⟩ :=
    TIFFWriteProc_spec A rj b hty hf (by omega) hcap hblock (by omega)
      (by rw [hpos, zero_add]; exact hgrow)
  rw [hpos, zero_add] at hp1 hl1 hcap1
  rw [hpos] at hdata
  have hl1' : isLong rj1.len := by unfold isLong at *; omega
  have hseek := TIFFSeekProc_set_within A rj1 0 hf1 hl1' (by omega) (by omega)
  have hmin : min (b.length : Int) (rj1.len - 0) = b.length := by omega
  have hread := TIFFReadProc_spec { rj1 with ptr := ((0 : Nat) : Int) } b.length
    ⟨by unfold isLong; simp, hl1', hal1, by unfold isLong at hal1; simp only; omega⟩ hf1
    (by simp) (by simp only; omega) (by simp only; omega) (by omega)
    (by unfold isLong; omega)
  simp only [Nat.cast_zero, hmin, zero_add, Int.toNat_zero, Int.toNat_ofNat] at hread hdata
  rw [hdata] at hread
  exact ⟨rj1, _, _, hw, hseek, hread⟩

/-- C2: on a buffer-backed job with `0 ≤ position ≤ length ≤ capacity` and capacity at least 1,
when growth succeeds a write of `b` returns its length `n`, moves the position to the old
position plus `n`, makes the length the maximum of the old length and that position, leaves a
capacity of at least that position, stores `b` at the old position, and keeps every byte below
the old length outside the written range; a write of no bytes leaves the job unchanged. -/
theorem write_postcondition (A : Allocator) (rj : tiff_job_t) (b : List Byte)
    (hty : rj.typed) (hf : rj.f = none) (h0 : 0 ≤ rj.ptr) (h1 : rj.ptr ≤ rj.len)
    (h2 : rj.len ≤ rj.alloc) (hcap : 1 ≤ rj.alloc)
    (hblock : (rj.data.length : Int) = rj.alloc)
    (hsum : rj.ptr + b.length ≤ 9223372036854775807)
    (hgrow : growth_succeeds A rj (rj.ptr + b.length) = true) :
    ∃ rj', TIFFWriteProc_ A rj b b.length = some ((b.length : Int), rj') ∧
      rj'.ptr = rj.ptr + b.length ∧ rj'.len = max rj.len (rj.ptr + b.length) ∧
      rj.ptr + b.length ≤ rj'.alloc ∧
      (rj'.data.drop rj.ptr.toNat).take b.length = b ∧
      (∀ i : Nat, (i : Int) < rj.len → ((i : Int) < rj.ptr ∨ rj.ptr + b.length ≤ i) →
        rj'.data[i]? = rj.data[i]?) ∧
      (b = [] → rj' = rj) := by
  obtain ⟨rj', hw, _, hp', hl', hcap', _, _, _, hdata, hkeep, _⟩ :=
    TIFFWriteProc_spec A rj b hty hf h0 hcap hblock hsum hgrow
  refine ⟨rj', hw, hp', hl', hcap', hdata, fun i hi hout => hkeep i (by omega) hout, ?_⟩
  intro hb
  subst hb
  have hnil := TIFFWriteProc_nil A rj hty hf h0 h1 (by omega) (by omega)
  simp only [List.length_nil, Nat.cast_zero] at hw
  rw [hnil] at hw
  simp only [Option.some.injEq, Prod.mk.injEq, true_and] at hw
  exact hw.symm

/-- C3: on a buffer-backed job with `0 ≤ position ≤ length` whose block holds its `length`
bytes, a read of `n ≥ 0` bytes returns `r = min n (length - position)`, delivers the `r` bytes
of the data from the position on, advances the position by `r` and changes nothing else; at
the end of the data it returns 0 and leaves the job as it was. -/
theorem read_postcondition (rj : tiff_job_t) (n : Int) (hty : rj.typed) (hf : rj.f = none)
    (h0 : 0 ≤ rj.ptr) (h1 : rj.ptr ≤ rj.len) (hblock : rj.len ≤ rj.data.length)
    (hn0 : 0 ≤ n) (hn : isLong n) :
    ∃ bytes rj', TIFFReadProc_ rj n = some (min n (rj.len - rj.ptr), bytes, rj') ∧
      bytes = (rj.data.drop rj.ptr.toNat).take (min n (rj.len - rj.ptr)).toNat ∧
      (bytes.length : Int) = min n (rj.len - rj.ptr) ∧
      rj'.ptr = rj.ptr + min n (rj.len - rj.ptr) ∧
      rj'.data = rj.data ∧ rj'.len = rj.len ∧ rj'.alloc = rj.alloc ∧ rj'.f = rj.f ∧
      (rj.ptr = rj.len → min n (rj.len - rj.ptr) = 0 ∧ bytes = [] ∧ rj' = rj) := by
  have hread := TIFFReadProc_spec rj n hty hf h0 h1 (by omega) hn0 hn
  refine ⟨_, _, hread, rfl, ?_, rfl, rfl, rfl, rfl, rfl, ?_⟩
  · simp only [List.length_take, List.length_drop]
    omega
  · intro he
    have hz : min n (rj.len - rj.ptr) = 0 := by omega
    refine ⟨hz, by simp [hz], ?_⟩
    rw [hz, add_zero]

/-! ## Growth never shrinks the capacity -/

theorem isLong_toLong (u : Nat) : isLong (toLong u) := by
  unfold isLong toLong; split <;> omega

theorem toULong_lt (x : Int) : toULong x < 18446744073709551616 := by
  unfold toULong; omega

theorem guarantee_write_buffer_cases (A : Allocator) (rj : tiff_job_t) (w : Int)
    (hcap : 1 ≤ rj.alloc) (hal : isLong rj.alloc) (hw : isLong w) :
    ∃ ok rj1, guarantee_write_buffer A rj w = some (ok, rj1) ∧ rj1.f = rj.f ∧
      rj1.ptr = rj.ptr ∧ rj1.len = rj.len ∧ isLong rj1.alloc ∧
      (∃ k : Nat, rj1.alloc = rj.alloc * 2 ^ k) ∧ (ok = 0 → rj1 = rj) ∧
      (ok ≠ 0 → w ≤ rj1.alloc) := by
  by_cases h : w ≤ rj.alloc
  · exact ⟨1, rj, guarantee_write_buffer_no_growth A rj w h, rfl, rfl, rfl, hal, ⟨0, by simp⟩,
      fun h1 => absurd h1 one_ne_zero, fun _ => h⟩
  · have hlt : rj.alloc < w := by omega
    obtain ⟨k, _, _, hwlt, _, hres⟩ := guarantee_write_buffer_grows A rj w hcap hal hw hlt
    rcases hres with ⟨hfail, _⟩ | ⟨d, hd, hgw⟩
    · exact ⟨0, rj, hfail, rfl, rfl, rfl, hal, ⟨0, by simp⟩, fun _ => rfl,
        fun h1 => absurd rfl h1⟩
    · have hlen := realloc_length hd
      refine ⟨1, _, hgw, rfl, rfl, rfl, ?_, ⟨k, ?_⟩, fun h1 => absurd h1 one_ne_zero, fun _ => ?_⟩
      · show isLong ((rj.alloc.toNat * 2 ^ k : Nat) : Int)
        unfold isLong; omega
      · show ((rj.alloc.toNat * 2 ^ k : Nat) : Int) = rj.alloc * 2 ^ k
        push_cast
        rw [Int.toNat_of_nonneg (by omega)]
      · show w ≤ ((rj.alloc.toNat * 2 ^ k : Nat) : Int)
        omega

/-- The invariant behind the capacity claim. -/
theorem write_step_grows (A : Allocator) (rj rj' : tiff_job_t) (buf : List Byte) (length : Int)
    (hf : rj.f = none) (hal : isLong rj.alloc) (hcap : 1 ≤ rj.alloc) (hlen : rj.len ≤ rj.alloc)
    (hstep : (Call.write A buf length).run rj = some rj') :
    (rj'.f = none ∧ isLong rj'.alloc ∧ 1 ≤ rj'.alloc ∧ rj'.len ≤ rj'.alloc) ∧ grows_to rj rj' := by
  obtain ⟨ok, rj1, hg, hf1, hp1, hl1, hal1, ⟨k, hk⟩, hok0, hok1⟩ :=
    guarantee_write_buffer_cases A rj (wrapLong (rj.ptr + length)) hcap hal (isLong_toLong _)
  have hpow : (1 : Int) ≤ 2 ^ k := one_le_pow₀ (by norm_num)
  have hcap1 : 1 ≤ rj1.alloc := by rw [hk]; nlinarith
  simp only [Call.run, TIFFWriteProc_, hf, hg, Option.map_eq_some'] at hstep
  obtain ⟨⟨r, j⟩, hres, hj⟩ := hstep
  simp only at hj
  subst hj
  by_cases h0 : ok = 0
  · have := hok0 h0
    subst this
    simp only [h0, if_true, Option.some.injEq, Prod.mk.injEq] at hres
    obtain ⟨_, rfl⟩ := hres
    exact ⟨⟨hf, hal, hcap, hlen⟩, ⟨0, by simp⟩, hlen⟩
  · have hw := hok1 h0
    simp only [h0, if_false] at hres
    cases hm : memcpy_to rj1.data rj1.ptr buf (toULong length) with
    | none => rw [hm] at hres; simp at hres
    | some d =>
      rw [hm] at hres
      simp only [Option.some.injEq, Prod.mk.injEq] at hres
      obtain ⟨_, rfl⟩ := hres
      rw [hp1, hl1]
      split
      · rename_i hgt
        exact ⟨⟨by simp only [hf1, hf], hal1, hcap1, hw⟩, ⟨k, hk⟩, hw⟩
      · rename_i hgt
        have : rj.len ≤ rj1.alloc := by
          have : rj.alloc * 1 ≤ rj.alloc * 2 ^ k := by nlinarith
          omega
        exact ⟨⟨by simp only [hf1, hf], hal1, hcap1, this⟩, ⟨k, hk⟩, this⟩
theorem seek_set_step_grows (A : Allocator) (rj rj' : tiff_job_t) (o : Nat)
    (ho : o < 18446744073709551616)
    (hf : rj.f = none) (hal : isLong rj.alloc) (hcap : 1 ≤ rj.alloc) (hlen : rj.len ≤ rj.alloc)
    (hstep : (TIFFSeekProc_ A rj o SEEK_SET).map SeekResult.job = some rj') :
    (rj'.f = none ∧ isLong rj'.alloc ∧ 1 ≤ rj'.alloc ∧ rj'.len ≤ rj'.alloc) ∧ grows_to rj rj' := by
  have hau : toULong rj.alloc = rj.alloc.toNat := toULong_of_nonneg (by omega) hal
  have hsame : ∀ j : tiff_job_t, j.f = none → j.alloc = rj.alloc → j.len ≤ rj.alloc →
      (j.f = none ∧ isLong j.alloc ∧ 1 ≤ j.alloc ∧ j.len ≤ j.alloc) ∧ grows_to rj j := by
    intro j h1 h2 h3
    exact ⟨⟨h1, by rw [h2]; exact hal, by omega, by omega⟩, ⟨0, by simp [h2]⟩, by omega⟩
  unfold TIFFSeekProc_ at hstep
  simp only [hf, SEEK_SET, SEEK_CUR, SEEK_END, Int.reduceEq, Int.reduceNe, ↓reduceIte, ne_eq,
    not_true_eq_false] at hstep
  by_cases hc : ¬ rj.alloc = 0 ∧ toULong rj.len < o
  · simp only [hc, not_false_eq_true, and_self, if_true, ↓reduceIte] at hstep
    by_cases hge : o ≥ toULong rj.alloc
    · simp only [hge, if_true, ↓reduceIte] at hstep
      obtain ⟨ok, rj1, hg, hf1, hp1, hl1, hal1, ⟨k, hk⟩, hok0, hok1⟩ :=
        guarantee_write_buffer_cases A rj (toLong o) hcap hal (isLong_toLong _)
      have hpow : (1 : Int) ≤ 2 ^ k := one_le_pow₀ (by norm_num)
      have hcap1 : 1 ≤ rj1.alloc := by rw [hk]; nlinarith
      rw [hg] at hstep
      by_cases h0 : ok = 0
      · simp only [h0, if_true, ↓reduceIte, Option.map_some', Option.some.injEq] at hstep
        subst hstep
        exact hsame _ hf rfl hlen
      · have hw := hok1 h0
        simp only [h0, if_false, ↓reduceIte] at hstep
        split at hstep
        · simp only [Option.map_some', Option.some.injEq] at hstep
          subst hstep
          exact ⟨⟨by simp only [hf1, hf], hal1, hcap1, hw⟩, ⟨k, hk⟩, hw⟩
        · simp only [Option.map_some', Option.some.injEq] at hstep
          subst hstep
          exact ⟨⟨by simp only [hf1, hf], hal1, hcap1, hw⟩, ⟨k, hk⟩, hw⟩
    · simp only [hge, if_false, ↓reduceIte] at hstep
      have hlt : toLong o ≤ rj.alloc := by
        have : o < 9223372036854775808 := by unfold isLong at hal; omega
        rw [toLong_of_lt this]; omega
      cases hm : memset_zero rj.data rj.len (o - toULong rj.len) with
      | none => rw [hm] at hstep; simp at hstep
      | some d =>
        rw [hm] at hstep
        simp only at hstep
        split at hstep
        · simp only [Option.map_some', Option.some.injEq] at hstep
          subst hstep
          exact hsame _ rfl rfl hlt
        · simp only [Option.map_some', Option.some.injEq] at hstep
          subst hstep
          exact hsame _ rfl rfl hlt
  · simp only [hc, if_false, ↓reduceIte] at hstep
    split at hstep
    · simp only [Option.map_some', Option.some.injEq] at hstep
      subst hstep
      exact hsame _ hf rfl hlen
    · simp only [Option.map_some', Option.some.injEq] at hstep
      subst hstep
      exact hsame _ hf rfl hlen

theorem call_step_grows (c : Call) (rj rj' : tiff_job_t)
    (hinv : rj.f = none ∧ isLong rj.alloc ∧ 1 ≤ rj.alloc ∧ rj.len ≤ rj.alloc)
    (hstep : c.run rj = some rj') :
    (rj'.f = none ∧ isLong rj'.alloc ∧ 1 ≤ rj'.alloc ∧ rj'.len ≤ rj'.alloc) ∧ grows_to rj rj' := by
  obtain ⟨hf, hal, hcap, hlen⟩ := hinv
  cases c with
  | write A buf length => exact write_step_grows A rj rj' buf length hf hal hcap hlen hstep
  | seek A offset whence =>
    simp only [Call.run] at hstep
    by_cases h1 : whence = SEEK_CUR
    · subst h1
      rw [TIFFSeekProc_cur A rj _ hf] at hstep
      exact seek_set_step_grows A rj rj' _ (Nat.mod_lt _ (by norm_num)) hf hal hcap hlen hstep
    · by_cases h2 : whence = SEEK_END
      · subst h2
        rw [TIFFSeekProc_end A rj _ hf] at hstep
        exact seek_set_step_grows A rj rj' _ (Nat.mod_lt _ (by norm_num)) hf hal hcap hlen hstep
      · by_cases h3 : whence = SEEK_SET
        · subst h3
          exact seek_set_step_grows A rj rj' _ (toULong_lt _) hf hal hcap hlen hstep
        · unfold TIFFSeekProc_ at hstep
          simp only [hf, h1, h2, h3, if_false, ↓reduceIte, ne_eq, not_false_eq_true, if_true,
            Option.map_some', Option.some.injEq] at hstep
          subst hstep
          exact ⟨⟨hf, hal, hcap, hlen⟩, ⟨0, by simp⟩, hlen⟩

theorem trace_calls_chain (cs : List Call) : ∀ rj : tiff_job_t,
    (rj.f = none ∧ isLong rj.alloc ∧ 1 ≤ rj.alloc ∧ rj.len ≤ rj.alloc) →
    List.Chain grows_to rj (trace_calls rj cs) := by
  induction cs with
  | nil => intro rj _; exact List.Chain.nil
  | cons c cs ih =>
    intro rj hinv
    unfold trace_calls
    cases hrun : c.run rj with
    | none => exact List.Chain.nil
    | some rj' =>
      obtain ⟨hinv', hg⟩ := call_step_grows c rj rj' hinv hrun
      exact List.Chain.cons hg (ih rj' hinv')
/-- C4 (failing input): on the buffer-backed job of capacity 2 and length 0 whose block holds
the stale bytes 7, 7, the seek to target 2 (the capacity itself) succeeds, returns 2 and sets
position and length to 2, but the two bytes of the gap keep the value 7: the branch taken is
the one for "need more space", which writes no byte. -/
theorem seek_to_capacity_keeps_stale_bytes :
    TIFFSeekProc_ alloc_always ⟨none, 0, 0, 2, [7, 7]⟩ 2 SEEK_SET
      = some ⟨2, ⟨none, 2, 2, 2, [7, 7]⟩, []⟩ := by decide

/-- C5 (failing input): a sparse seek that grows the block leaves the gap as it finds it. On
the job of capacity 2 with stale bytes 7, 7 the seek to 5 yields length 5 over the bytes
7, 7 and three bytes of fresh memory; and on the empty job of capacity 1 the scenario
"write 10 bytes, seek to 20, write 5 bytes, seek to 0, read 25" delivers the 10 bytes, 10 bytes
of fresh memory (0xAA here, not zero), then the 5 bytes. -/
theorem sparse_seek_growth_keeps_junk :
    TIFFSeekProc_ alloc_always ⟨none, 0, 0, 2, [7, 7]⟩ 5 SEEK_SET
      = some ⟨5, ⟨none, 5, 5, 8, [7, 7, 170, 170, 170, 170, 170, 170]⟩, []⟩ ∧
    sparse_scenario alloc_always ⟨none, 0, 0, 1, [170]⟩ [1, 2, 3, 4, 5, 6, 7, 8, 9, 10]
        [11, 12, 13, 14, 15]
      = some (25, [1, 2, 3, 4, 5, 6, 7, 8, 9, 10, 170, 170, 170, 170, 170, 170, 170, 170, 170,
          170, 11, 12, 13, 14, 15]) := by
  constructor <;> decide

/-- C6 (counterexample): on the read-only buffer job (capacity 0) at position 2 with length 3,
the seek by 5 from the current position resolves to 7 but returns the failure value and leaves
the position at 2. -/
theorem seek_cur_past_end_read_only_fails :
    TIFFSeekProc_ alloc_always ⟨none, 2, 3, 0, [1, 2, 3]⟩ (toULong 5) SEEK_CUR
      = some ⟨SEEK_FAIL, ⟨none, 2, 3, 0, [1, 2, 3]⟩,
          ["libtiff attempted to seek beyond the data end"]⟩ ∧
    SEEK_FAIL ≠ 2 + 5 := by
  constructor <;> decide

/-- C6 (amended): on a buffer-backed job at position `p` with length `L ≥ 0`, an offset `k`
resolves to the target `T = k` from the start, `T = p + k` from the current position and
`T = L + k` from the end; whenever `0 ≤ T` and either `T ≤ L`, or the capacity is at least 1
and any needed growth succeeds, the call returns `T` and sets the position to `T`. In
particular a seek by 0 from the end returns `L`, the value of `TIFFSizeProc_`. -/
theorem seek_whence_resolution (A : Allocator) (rj : tiff_job_t) (k whence T : Int)
    (hty : rj.typed) (hf : rj.f = none) (hl0 : 0 ≤ rj.len) (hk : isLong k)
    (hres : (whence = SEEK_SET ∧ T = k) ∨ (whence = SEEK_CUR ∧ T = rj.ptr + k) ∨
      (whence = SEEK_END ∧ T = rj.len + k))
    (hT0 : 0 ≤ T) (hTmax : T ≤ 9223372036854775807)
    (hcond : T ≤ rj.len ∨ (1 ≤ rj.alloc ∧ (rj.data.length : Int) = rj.alloc ∧
      growth_succeeds A rj T = true)) :
    ∃ rj', TIFFSeekProc_ A rj (toULong k) whence = some ⟨T.toNat, rj', []⟩ ∧ rj'.ptr = T ∧
      (whence = SEEK_END → k = 0 → (TIFFSizeProc_ rj).1 = T.toNat) := by
  obtain ⟨hp, hl, ha, hd⟩ := hty
  have hTn : ((T.toNat : Nat) : Int) = T := Int.toNat_of_nonneg hT0
  have hred : TIFFSeekProc_ A rj (toULong k) whence = TIFFSeekProc_ A rj T.toNat SEEK_SET := by
    rcases hres with ⟨hw, hT⟩ | ⟨hw, hT⟩ | ⟨hw, hT⟩
    · subst hw
      have : toULong k = T.toNat := by unfold toULong; omega
      rw [this]
    · subst hw
      rw [TIFFSeekProc_cur A rj _ hf]
      have : (toULong k + toULong rj.ptr) % 18446744073709551616 = T.toNat := by
        unfold toULong; unfold isLong at hk hp; omega
      rw [this]
    · subst hw
      rw [TIFFSeekProc_end A rj _ hf]
      have : (toULong k + toULong rj.len) % 18446744073709551616 = T.toNat := by
        unfold toULong; unfold isLong at hk hl; omega
      rw [this]
  have hsize : whence = SEEK_END → k = 0 → (TIFFSizeProc_ rj).1 = T.toNat := by
    intro hw hk0
    have hT : T = rj.len := by
      rcases hres with ⟨hw', _⟩ | ⟨hw', _⟩ | ⟨_, hT⟩
      · rw [hw] at hw'; exact absurd hw' (by decide)
      · rw [hw] at hw'; exact absurd hw' (by decide)
      · omega
    unfold TIFFSizeProc_
    simp only [hf, hT]
    exact toULong_of_nonneg hl0 hl
  rw [hred]
  by_cases hle : T ≤ rj.len
  · refine ⟨_, TIFFSeekProc_set_within A rj T.toNat hf hl hl0 (by omega), ?_, hsize⟩
    exact hTn
  · rcases hcond with h | ⟨hcap, hblock, hgrow⟩
    · exact absurd h hle
    · by_cases hlt : T < rj.alloc
      · refine ⟨_, TIFFSeekProc_set_zero_fill A rj T.toNat hf hl ha hl0 hblock (by omega)
          (by omega), ?_, hsize⟩
        exact hTn
      · obtain ⟨rj1, hg, _⟩ := guarantee_write_buffer_ok A rj T hcap ha
          (by unfold isLong; omega) hblock hgrow
        rw [← hTn] at hg
        refine ⟨_, TIFFSeekProc_set_grow A rj T.toNat hf hl ha hl0 hcap (by omega) (by omega)
          (by omega) rj1 hg, ?_, hsize⟩
        exact hTn

/-- C7: on a buffer-backed job, a seek whose `whence` is none of `SEEK_SET`, `SEEK_CUR`,
`SEEK_END` returns the failure value `(toff_t) -1` and leaves the whole job (position, length,
capacity, block) as it was. -/
theorem seek_invalid_whence (A : Allocator) (rj : tiff_job_t) (offset : Nat) (whence : Int)
    (hf : rj.f = none) (h0 : whence ≠ SEEK_SET) (h1 : whence ≠ SEEK_CUR)
    (h2 : whence ≠ SEEK_END) :
    TIFFSeekProc_ A rj offset whence = some ⟨SEEK_FAIL, rj,
        ["invalid `whence' argument to TIFFSeekProc callback called by libtiff"]⟩ ∧
      SEEK_FAIL = toULong (-1) := by
  constructor
  · unfold TIFFSeekProc_
    simp only [hf, h0, h1, h2, if_false, ↓reduceIte, ne_eq, not_false_eq_true, if_true]
  · decide

/-- C8: from a buffer-backed job with `length ≤ capacity` and capacity at least 1, along every
sequence of write and seek calls (whatever their arguments and whether they succeed or fail),
each call leaves a capacity equal to the capacity before it times a power of two, and a length
that does not exceed the capacity. -/
theorem growth_monotone (rj : tiff_job_t) (cs : List Call) (hty : rj.typed) (hf : rj.f = none)
    (hcap : 1 ≤ rj.alloc) (hlen : rj.len ≤ rj.alloc) :
    List.Chain grows_to rj (trace_calls rj cs) :=
  trace_calls_chain cs rj ⟨hf, hty.2.2.1, hcap, hlen⟩
/-- Witness for C1: a write of three bytes into a one-byte block, which has to grow. -/
theorem round_trip_buffer_witness :
    (tiff_job_t.typed ⟨none, 0, 0, 1, [7]⟩ ∧
      growth_succeeds alloc_always ⟨none, 0, 0, 1, [7]⟩ ([1, 2, 3] : List Byte).length = true) ∧
    ∃ rj1 rj2 rj3,
      TIFFWriteProc_ alloc_always ⟨none, 0, 0, 1, [7]⟩ [1, 2, 3] ([1, 2, 3] : List Byte).length
        = some ((([1, 2, 3] : List Byte).length : Int), rj1) ∧
      TIFFSeekProc_ alloc_always rj1 0 SEEK_SET = some ⟨0, rj2, []⟩ ∧
      TIFFReadProc_ rj2 ([1, 2, 3] : List Byte).length
        = some ((([1, 2, 3] : List Byte).length : Int), [1, 2, 3], rj3) :=
  ⟨⟨by decide, by decide⟩,
    round_trip_buffer alloc_always ⟨none, 0, 0, 1, [7]⟩ [1, 2, 3] (by decide) rfl (by decide)
      (by decide) rfl (by decide) (by decide)⟩

/-- Witness for C2: a write of three bytes at position 1 of a two-byte block. -/
theorem write_postcondition_witness :
    (job_small.typed ∧ growth_succeeds alloc_always job_small
        (job_small.ptr + ([9, 9, 9] : List Byte).length) = true) ∧
    ∃ rj', TIFFWriteProc_ alloc_always job_small [9, 9, 9] ([9, 9, 9] : List Byte).length
        = some ((([9, 9, 9] : List Byte).length : Int), rj') ∧
      rj'.ptr = job_small.ptr + ([9, 9, 9] : List Byte).length ∧
      rj'.len = max job_small.len (job_small.ptr + ([9, 9, 9] : List Byte).length) ∧
      job_small.ptr + ([9, 9, 9] : List Byte).length ≤ rj'.alloc ∧
      (rj'.data.drop job_small.ptr.toNat).take ([9, 9, 9] : List Byte).length = [9, 9, 9] ∧
      (∀ i : Nat, (i : Int) < job_small.len →
        ((i : Int) < job_small.ptr ∨ job_small.ptr + ([9, 9, 9] : List Byte).length ≤ i) →
        rj'.data[i]? = job_small.data[i]?) ∧
      (([9, 9, 9] : List Byte) = [] → rj' = job_small) :=
  ⟨⟨by decide, by decide⟩,
    write_postcondition alloc_always job_small [9, 9, 9] (by decide) rfl (by decide) (by decide)
      (by decide) (by decide) (by decide) (by decide) (by decide)⟩

/-- Witness for C3: a read of ten bytes with one byte left before the end of the data. -/
theorem read_postcondition_witness :
    (job_read_only.typed ∧ job_read_only.ptr ≤ job_read_only.len) ∧
    ∃ bytes rj', TIFFReadProc_ job_read_only 10
        = some (min 10 (job_read_only.len - job_read_only.ptr), bytes, rj') ∧
      bytes = (job_read_only.data.drop job_read_only.ptr.toNat).take
        (min 10 (job_read_only.len - job_read_only.ptr)).toNat ∧
      (bytes.length : Int) = min 10 (job_read_only.len - job_read_only.ptr) ∧
      rj'.ptr = job_read_only.ptr + min 10 (job_read_only.len - job_read_only.ptr) ∧
      rj'.data = job_read_only.data ∧ rj'.len = job_read_only.len ∧
      rj'.alloc = job_read_only.alloc ∧ rj'.f = job_read_only.f ∧
      (job_read_only.ptr = job_read_only.len →
        min 10 (job_read_only.len - job_read_only.ptr) = 0 ∧ bytes = [] ∧ rj' = job_read_only) :=
  ⟨⟨by decide, by decide⟩,
    read_postcondition job_read_only 10 (by decide) rfl (by decide) (by decide) (by decide)
      (by decide) (by decide)⟩

/-- Witness for C6 as amended: a seek by 5 from position 1, past the capacity of 2. -/
theorem seek_whence_resolution_witness :
    (job_small.typed ∧ growth_succeeds alloc_always job_small 6 = true) ∧
    ∃ rj', TIFFSeekProc_ alloc_always job_small (toULong 5) SEEK_CUR
        = some ⟨(6 : Int).toNat, rj', []⟩ ∧ rj'.ptr = 6 ∧
      (SEEK_CUR = SEEK_END → (5 : Int) = 0 → (TIFFSizeProc_ job_small).1 = (6 : Int).toNat) :=
  ⟨⟨by decide, by decide⟩,
    seek_whence_resolution alloc_always job_small 5 SEEK_CUR 6 (by decide) rfl (by decide)
      (by decide) (Or.inr (Or.inl ⟨rfl, by decide⟩)) (by decide) (by decide)
      (Or.inr ⟨by decide, by decide, by decide⟩)⟩

/-- Witness for C7: a seek with `whence = 7`. -/
theorem seek_invalid_whence_witness :
    ((7 : Int) ≠ SEEK_SET ∧ (7 : Int) ≠ SEEK_CUR ∧ (7 : Int) ≠ SEEK_END) ∧
    (TIFFSeekProc_ alloc_always job_small 4 7 = some ⟨SEEK_FAIL, job_small,
        ["invalid `whence' argument to TIFFSeekProc callback called by libtiff"]⟩ ∧
      SEEK_FAIL = toULong (-1)) :=
  ⟨⟨by decide, by decide, by decide⟩,
    seek_invalid_whence alloc_always job_small 4 7 rfl (by decide) (by decide) (by decide)⟩

/-- Witness for C8: the sample sequence, with the length and capacity after each call. -/
theorem growth_monotone_witness :
    (job_small.typed ∧ (trace_calls job_small sample_calls).map (fun j => (j.len, j.alloc))
        = [(4, 8), (20, 32), (22, 32), (22, 32), (22, 32)]) ∧
    List.Chain grows_to job_small (trace_calls job_small sample_calls) :=
  ⟨⟨by decide, by decide⟩,
    growth_monotone job_small sample_calls (by decide) rfl (by decide) (by decide)⟩

/-! ## The session layer -/

theorem live_handles_snoc (log : List Event) (e : Event) :
    live_handles (log ++ [e]) = live_after (live_handles log) e := by
  simp [live_handles, List.foldl_append]

theorem at_most_one_live_snoc (log : List Event) (e : Event) : ∀ live : List Nat,
    at_most_one_live live (log ++ [e]) ↔
      at_most_one_live live log ∧ (live_after (log.foldl live_after live) e).length ≤ 1 := by
  induction log with
  | nil => intro live; simp [at_most_one_live]
  | cons x xs ih =>
    intro live
    show (live.length ≤ 1 ∧ at_most_one_live (live_after live x) (xs ++ [e])) ↔ _
    rw [ih]
    simp only [at_most_one_live, List.foldl_cons, and_assoc]

theorem log_tracks_quiet {log : List Event} {h : Option Nat} (e : Event)
    (he : ∀ live, live_after live e = live) (hk : log_tracks log h) :
    log_tracks (log ++ [e]) h := by
  obtain ⟨h1, h2⟩ := hk
  refine ⟨by rw [live_handles_snoc, he, h1], ?_⟩
  rw [at_most_one_live_snoc]
  refine ⟨h2, ?_⟩
  rw [he]
  have : log.foldl live_after [] = h.toList := h1
  rw [this]
  cases h <;> simp

theorem log_tracks_close {log : List Event} {id : Nat} (hk : log_tracks log (some id)) :
    log_tracks (log ++ [Event.close id]) none := by
  obtain ⟨h1, h2⟩ := hk
  have hl : log.foldl live_after [] = [id] := h1
  refine ⟨by rw [live_handles_snoc, h1]; simp [live_after], ?_⟩
  rw [at_most_one_live_snoc]
  refine ⟨h2, ?_⟩
  rw [hl]
  simp [live_after]

theorem log_tracks_open {log : List Event} (mode : String) (rj : tiff_job_t) (r : Option Nat)
    (hk : log_tracks log none) : log_tracks (log ++ [Event.client_open mode rj r]) r := by
  obtain ⟨h1, h2⟩ := hk
  have hl : log.foldl live_after [] = [] := h1
  refine ⟨by rw [live_handles_snoc, h1]; cases r <;> simp [live_after], ?_⟩
  rw [at_most_one_live_snoc]
  refine ⟨h2, ?_⟩
  rw [hl]
  cases r <;> simp [live_after]

theorem TIFFClose_spec (s : Session) (t : TIFF) :
    (TIFFClose s t).last_tiff = none ∧
    ∃ tail, (TIFFClose s t).log = s.log ++ (Event.close t.id :: tail) ∧
      (∀ e ∈ tail, e = Event.fclose ∨ e = Event.free) := by
  unfold TIFFClose TIFFCloseProc_
  cases hf : t.job.f with
  | some fl => exact ⟨rfl, [Event.fclose], by simp, by simp⟩
  | none =>
    by_cases ha : t.job.alloc ≠ 0
    · simp only [ha, ne_eq, not_false_eq_true, if_true]
      exact ⟨trivial, [Event.free], by simp, by simp⟩
    · simp only [ha, if_false]
      exact ⟨trivial, [], by simp, by simp⟩

theorem log_tracks_tail {tail : List Event} (htail : ∀ e ∈ tail, e = Event.fclose ∨ e = Event.free) :
    ∀ {log : List Event} {h : Option Nat}, log_tracks log h → log_tracks (log ++ tail) h := by
  induction tail with
  | nil => intro log h hk; simpa using hk
  | cons x xs ih =>
    intro log h hk
    have hx : ∀ live, live_after live x = live := by
      intro live
      rcases htail x (List.mem_cons_self _ _) with rfl | rfl <;> rfl
    have := ih (fun e he => htail e (List.mem_cons_of_mem _ he)) (log_tracks_quiet x hx hk)
    simpa using this

theorem before_check_spec (s : Session) :
    (before_check s).last_tiff = none ∧
    ∃ pre, (before_check s).log = s.log ++ pre ∧ (∀ e ∈ pre, e.is_client_open = false) ∧
      (∀ t, s.last_tiff = some t → Event.close t.id ∈ pre) ∧
      (log_tracks s.log (s.last_tiff.map TIFF.id) → log_tracks (s.log ++ pre) none) := by
  have key : ∀ s1 : Session, ∀ pre0 : List Event, s1.log = s.log ++ pre0 →
      s1.last_tiff = s.last_tiff → (∀ e ∈ pre0, e = Event.set_handlers) →
      (match s1.last_tiff with
        | some t => { TIFFClose s1 t with last_tiff := none }
        | none => s1).last_tiff = none ∧
      ∃ pre, (match s1.last_tiff with
        | some t => { TIFFClose s1 t with last_tiff := none }
        | none => s1).log = s.log ++ pre ∧ (∀ e ∈ pre, e.is_client_open = false) ∧
        (∀ t, s.last_tiff = some t → Event.close t.id ∈ pre) ∧
        (log_tracks s.log (s.last_tiff.map TIFF.id) → log_tracks (s.log ++ pre) none) := by
    intro s1 pre0 hlog hlast hpre0
    have hq : ∀ {h : Option Nat}, log_tracks s.log h → log_tracks (s.log ++ pre0) h := by
      intro h hk
      clear hlog
      induction pre0 using List.reverseRecOn with
      | nil => simpa using hk
      | append_singleton xs x ih =>
        have hx : x = Event.set_handlers := hpre0 x (by simp)
        have := log_tracks_quiet x (by subst hx; intro live; rfl)
          (ih (fun e he => hpre0 e (by simp [he])))
        simpa using this
    cases hl : s1.last_tiff with
    | none =>
      have hl' := hl
      rw [hlast] at hl'
      simp only []
      refine ⟨hl, pre0, hlog, ?_, ?_, ?_⟩
      · intro e he; rw [hpre0 e he]; rfl
      · intro t ht; rw [hl'] at ht; cases ht
      · intro hk; rw [hl'] at hk; exact hq hk
    | some t =>
      rw [hlast] at hl
      simp only []
      obtain ⟨_, tail, htl, htail⟩ := TIFFClose_spec s1 t
      refine ⟨trivial, pre0 ++ Event.close t.id :: tail, ?_, ?_, ?_, ?_⟩
      · show (TIFFClose s1 t).log = _
        rw [htl, hlog, List.append_assoc]
      · intro e he
        rcases List.mem_append.mp he with h1 | h1
        · rw [hpre0 e h1]; rfl
        · rcases List.mem_cons.mp h1 with h2 | h2
          · rw [h2]; rfl
          · rcases htail e h2 with rfl | rfl <;> rfl
      · intro t' ht'
        rw [hl] at ht'
        cases ht'
        simp
      · intro hk
        rw [hl] at hk
        have h1 := log_tracks_close (hq hk)
        have h2 := log_tracks_tail htail h1
        simpa [List.append_assoc] using h2
  unfold before_check
  by_cases hn : s.need_init = true
  · simp only [hn, if_true]
    exact key (init_tiff s) [Event.set_handlers] rfl rfl (by simp)
  · simp only [hn, if_false]
    exact key s [] (by simp) rfl (by simp)
theorem fread_restore (fl : FILE) : (fseeko (fread fl 4).2 (ftello fl) SEEK_SET).2 = fl := by
  unfold fseeko fread ftello
  simp [SEEK_SET]

theorem magic_list_eq (m : List Byte) (a b c d : Byte) :
    (m.length = 4 ∧ m[0]? = some a ∧ m[1]? = some b ∧ m[2]? = some c ∧ m[3]? = some d) ↔
      m = [a, b, c, d] := by
  constructor
  · rintro ⟨hl, h0, h1, h2, h3⟩
    match m, hl with
    | [w, x, y, z], _ =>
      simp only [List.getElem?_cons_zero, List.getElem?_cons_succ, Option.some.injEq] at h0 h1 h2 h3
      subst h0 h1 h2 h3
      rfl
  · rintro rfl
    simp

theorem magic_check_iff (fl : FILE) :
    ((fread fl 4).1.length ≠ 4 ∨
      ¬ (((fread fl 4).1[0]? = some 73 ∧ (fread fl 4).1[1]? = some 73 ∧
            (fread fl 4).1[2]? = some 42 ∧ (fread fl 4).1[3]? = some 0) ∨
          ((fread fl 4).1[0]? = some 77 ∧ (fread fl 4).1[1]? = some 77 ∧
            (fread fl 4).1[2]? = some 0 ∧ (fread fl 4).1[3]? = some 42))) ↔ ¬ magic_ok fl := by
  have hm : (fread fl 4).1 = (fl.bytes.drop fl.pos).take 4 := rfl
  unfold magic_ok
  rw [← hm, ← magic_list_eq, ← magic_list_eq]
  tauto

theorem TIFF_Open_eq (C : Codec) (s : Session) (mode : String) (rj : tiff_job_t) :
    TIFF_Open C s mode rj =
      if (signature_check mode rj).1 = false then
        (none, (signature_check mode rj).2, before_check s)
      else
        ((TIFFClientOpen C (before_check s) mode (signature_check mode rj).2).1,
          (TIFFClientOpen C (before_check s) mode (signature_check mode rj).2).2.1,
          { (TIFFClientOpen C (before_check s) mode (signature_check mode rj).2).2.2 with
            last_tiff := (TIFFClientOpen C (before_check s) mode (signature_check mode rj).2).1 }) :=
  rfl

theorem TIFF_Open_file_read (C : Codec) (s : Session) (mode : String) (rj : tiff_job_t)
    (fl : FILE) (hf : rj.f = some fl) (hmode : mode.toList.contains 'r' = true) :
    TIFF_Open C s mode rj =
      if magic_ok fl then
        ((TIFFClientOpen C (before_check s) mode rj).1,
          (TIFFClientOpen C (before_check s) mode rj).2.1,
          { (TIFFClientOpen C (before_check s) mode rj).2.2 with
            last_tiff := (TIFFClientOpen C (before_check s) mode rj).1 })
      else (none, rj, before_check s) := by
  have hrj : { rj with f := some fl } = rj := by
    obtain ⟨f, p, l, a, d⟩ := rj
    simp only at hf
    subst hf
    rfl
  rw [TIFF_Open_eq]
  unfold signature_check
  simp only [hf, hmode, if_true, fread_restore, hrj]
  by_cases hok : magic_ok fl
  · have := (not_congr (magic_check_iff fl)).mpr (not_not.mpr hok)
    simp only [this, hok, if_false, if_true, Bool.true_eq_false]
  · have := (magic_check_iff fl).mpr hok
    simp only [this, hok, if_false, if_true]

theorem TIFFClientOpen_spec (C : Codec) (s : Session) (mode : String) (rj : tiff_job_t) :
    (TIFFClientOpen C s mode rj).2.2.log =
        s.log ++ [Event.client_open mode rj ((TIFFClientOpen C s mode rj).1.map TIFF.id)] ∧
      ((C.client_open mode rj).1 = false → (TIFFClientOpen C s mode rj).1 = none) ∧
      ((C.client_open mode rj).1 = true → (TIFFClientOpen C s mode rj).1.isSome = true) := by
  unfold TIFFClientOpen
  by_cases h : (C.client_open mode rj).1 = true
  · simp [h]
  · simp [h]

/-- C10: for a file-backed job opened with a mode containing `r`, `TIFF_Open` invokes the
codec's open exactly when the four bytes at the file position are `II` 42 0 or `MM` 0 42: in
that case the log gains, after the events of the prologue (none of them a codec open), one
invocation of `TIFFClientOpen` on the job with its stream back at the position it had; otherwise
the result is null, no codec open is logged, and the job (stream position included) is as
before the call. -/
theorem magic_validation (C : Codec) (s : Session) (mode : String) (rj : tiff_job_t)
    (fl : FILE) (hf : rj.f = some fl) (hmode : mode.toList.contains 'r' = true) :
    ∃ pre, (∀ e ∈ pre, e.is_client_open = false) ∧
      (magic_ok fl →
        (TIFF_Open C s mode rj).2.2.log =
          s.log ++ pre ++ [Event.client_open mode rj ((TIFF_Open C s mode rj).1.map TIFF.id)]) ∧
      (¬ magic_ok fl →
        (TIFF_Open C s mode rj).1 = none ∧ (TIFF_Open C s mode rj).2.2.log = s.log ++ pre ∧
          (TIFF_Open C s mode rj).2.1 = rj) := by
  obtain ⟨_, pre, hlog, hpre, _, _⟩ := before_check_spec s
  refine ⟨pre, hpre, ?_, ?_⟩
  · intro hok
    rw [TIFF_Open_file_read C s mode rj fl hf hmode]
    simp only [hok, if_true]
    rw [(TIFFClientOpen_spec C (before_check s) mode rj).1, hlog]
  · intro hok
    rw [TIFF_Open_file_read C s mode rj fl hf hmode]
    simp only [hok, if_false]
    exact ⟨trivial, hlog, trivial⟩
theorem TIFF_Open_cases (C : Codec) (s : Session) (mode : String) (rj : tiff_job_t) :
    ∃ j, TIFF_Open C s mode rj = (none, j, before_check s) ∨
      TIFF_Open C s mode rj =
        ((TIFFClientOpen C (before_check s) mode j).1,
          (TIFFClientOpen C (before_check s) mode j).2.1,
          { (TIFFClientOpen C (before_check s) mode j).2.2 with
            last_tiff := (TIFFClientOpen C (before_check s) mode j).1 }) := by
  rw [TIFF_Open_eq]
  by_cases h : (signature_check mode rj).1 = false
  · exact ⟨_, Or.inl (if_pos h)⟩
  · exact ⟨_, Or.inr (if_neg h)⟩

theorem TIFF_Open_log (C : Codec) (s : Session) (mode : String) (rj : tiff_job_t) :
    ∃ pre opening, (TIFF_Open C s mode rj).2.2.log = s.log ++ pre ++ opening ∧
      (∀ e ∈ pre, e.is_client_open = false) ∧
      (∀ t, s.last_tiff = some t → Event.close t.id ∈ pre) ∧
      (s.coherent → log_tracks (s.log ++ pre) none) ∧
      (opening = [] ∧ (TIFF_Open C s mode rj).1 = none ∨
        ∃ j, opening = [Event.client_open mode j ((TIFF_Open C s mode rj).1.map TIFF.id)] ∧
          ((C.client_open mode j).1 = false → (TIFF_Open C s mode rj).1 = none)) ∧
      (TIFF_Open C s mode rj).2.2.last_tiff = (TIFF_Open C s mode rj).1 := by
  obtain ⟨hlast, pre, hlog, hpre, hclose, htrack⟩ := before_check_spec s
  obtain ⟨j, hj | hj⟩ := TIFF_Open_cases C s mode rj
  · refine ⟨pre, [], ?_, hpre, hclose, htrack, Or.inl ⟨rfl, by rw [hj]⟩, ?_⟩
    · rw [hj]; simpa using hlog
    · rw [hj]; exact hlast
  · obtain ⟨hl, hfail, _⟩ := TIFFClientOpen_spec C (before_check s) mode j
    refine ⟨pre, [Event.client_open mode j ((TIFF_Open C s mode rj).1.map TIFF.id)], ?_, hpre,
      hclose, htrack, Or.inr ⟨j, rfl, ?_⟩, ?_⟩
    · rw [hj]
      show (TIFFClientOpen C (before_check s) mode j).2.2.log = _
      rw [hl, hlog]
    · intro h; rw [hj]; exact hfail h
    · rw [hj]

theorem TIFF_Open_coherent (C : Codec) (s : Session) (mode : String) (rj : tiff_job_t)
    (hcoh : s.coherent) : (TIFF_Open C s mode rj).2.2.coherent := by
  obtain ⟨pre, opening, hlog, _, _, htrack, hopen, hlast⟩ := TIFF_Open_log C s mode rj
  have hk := htrack hcoh
  show log_tracks (TIFF_Open C s mode rj).2.2.log ((TIFF_Open C s mode rj).2.2.last_tiff.map TIFF.id)
  rw [hlog, hlast]
  rcases hopen with ⟨ho, hnone⟩ | ⟨j, ho, _⟩
  · rw [ho, hnone]; simpa using hk
  · rw [ho]; exact log_tracks_open mode j _ hk

theorem cleanup_tiff_coherent (s : Session) (hcoh : s.coherent) : (cleanup_tiff s).coherent := by
  unfold cleanup_tiff
  cases hl : s.last_tiff with
  | none => simpa using hcoh
  | some t =>
    obtain ⟨_, tail, htl, htail⟩ := TIFFClose_spec s t
    have hk : log_tracks s.log (some t.id) := by
      have : log_tracks s.log (s.last_tiff.map TIFF.id) := hcoh
      rw [hl] at this
      exact this
    have h2 := log_tracks_tail htail (log_tracks_close hk)
    show log_tracks (TIFFClose s t).log none
    rw [htl]
    simpa [List.append_assoc] using h2

theorem run_ops_coherent (C : Codec) (ops : List SessionOp) : ∀ s : Session,
    s.coherent → (run_ops C s ops).coherent := by
  induction ops with
  | nil => intro s h; exact h
  | cons op ops ih =>
    intro s h
    cases op with
    | open_ mode rj => exact ih _ (TIFF_Open_coherent C s mode rj h)
    | cleanup => exact ih _ (cleanup_tiff_coherent s h)

/-- C9: with one codec handle at most open and recorded as the active handle, every sequence
of `TIFF_Open` and `cleanup_tiff` calls keeps it so at every moment of the event log; and from
any session, `TIFF_Open` logs the `TIFFClose` of a previously active handle before it logs any
invocation of `TIFFClientOpen` (no handle is open at that point), invokes the codec at most
once, and leaves `last_tiff` equal to the handle it returns, which is null when the codec's
open fails or is not attempted; the close callback run by `TIFFClose` clears `last_tiff`. -/
theorem single_active_handle (C : Codec) (s0 : Session) (ops : List SessionOp)
    (hcoh : s0.coherent) (s : Session) (mode : String) (rj : tiff_job_t) :
    (run_ops C s0 ops).coherent ∧
    ∃ pre opening, (TIFF_Open C s mode rj).2.2.log = s.log ++ pre ++ opening ∧
      (∀ e ∈ pre, e.is_client_open = false) ∧
      (∀ t, s.last_tiff = some t → Event.close t.id ∈ pre) ∧
      (s.coherent → live_handles (s.log ++ pre) = []) ∧
      (opening = [] ∧ (TIFF_Open C s mode rj).1 = none ∨
        ∃ j, opening = [Event.client_open mode j ((TIFF_Open C s mode rj).1.map TIFF.id)] ∧
          ((C.client_open mode j).1 = false → (TIFF_Open C s mode rj).1 = none)) ∧
      (TIFF_Open C s mode rj).2.2.last_tiff = (TIFF_Open C s mode rj).1 ∧
      (∀ t : TIFF, (TIFFClose s t).last_tiff = none) := by
  refine ⟨run_ops_coherent C ops s0 hcoh, ?_⟩
  obtain ⟨pre, opening, h1, h2, h3, h4, h5, h6⟩ := TIFF_Open_log C s mode rj
  exact ⟨pre, opening, h1, h2, h3, fun h => (h4 h).1, h5, h6, fun t => (TIFFClose_spec s t).1⟩
/-- Witness for C9: the sample sequence of opens and a cleanup from the initial session, and an
open refused by the signature check while a handle is active. -/
theorem single_active_handle_witness :
    (Session.initial.coherent ∧
      (run_ops codec_ok Session.initial sample_ops).log =
        [Event.set_handlers, Event.client_open "rmc" job_tiff_file (some 1), Event.close 1,
          Event.fclose, Event.client_open "rmc" job_tiff_file (some 2), Event.close 2,
          Event.fclose, Event.client_open "w" job_small (some 3), Event.close 3, Event.free]) ∧
    ((run_ops codec_ok Session.initial sample_ops).coherent ∧
    ∃ pre opening,
      (TIFF_Open codec_ok (TIFF_Open codec_ok Session.initial "rmc" job_tiff_file).2.2 "rmc"
          job_zip_file).2.2.log =
        (TIFF_Open codec_ok Session.initial "rmc" job_tiff_file).2.2.log ++ pre ++ opening ∧
      (∀ e ∈ pre, e.is_client_open = false) ∧
      (∀ t, (TIFF_Open codec_ok Session.initial "rmc" job_tiff_file).2.2.last_tiff = some t →
        Event.close t.id ∈ pre) ∧
      ((TIFF_Open codec_ok Session.initial "rmc" job_tiff_file).2.2.coherent →
        live_handles ((TIFF_Open codec_ok Session.initial "rmc" job_tiff_file).2.2.log ++ pre)
          = []) ∧
      (opening = [] ∧
          (TIFF_Open codec_ok (TIFF_Open codec_ok Session.initial "rmc" job_tiff_file).2.2 "rmc"
            job_zip_file).1 = none ∨
        ∃ j, opening = [Event.client_open "rmc" j
            ((TIFF_Open codec_ok (TIFF_Open codec_ok Session.initial "rmc" job_tiff_file).2.2
              "rmc" job_zip_file).1.map TIFF.id)] ∧
          ((codec_ok.client_open "rmc" j).1 = false →
            (TIFF_Open codec_ok (TIFF_Open codec_ok Session.initial "rmc" job_tiff_file).2.2
              "rmc" job_zip_file).1 = none)) ∧
      (TIFF_Open codec_ok (TIFF_Open codec_ok Session.initial "rmc" job_tiff_file).2.2 "rmc"
          job_zip_file).2.2.last_tiff =
        (TIFF_Open codec_ok (TIFF_Open codec_ok Session.initial "rmc" job_tiff_file).2.2 "rmc"
          job_zip_file).1 ∧
      (∀ t : TIFF,
        (TIFFClose (TIFF_Open codec_ok Session.initial "rmc" job_tiff_file).2.2 t).last_tiff
          = none)) :=
  ⟨⟨by decide, by decide⟩,
    single_active_handle codec_ok Session.initial sample_ops (by decide)
      (TIFF_Open codec_ok Session.initial "rmc" job_tiff_file).2.2 "rmc" job_zip_file⟩

/-- Witness for C10: a read-mode open of a file starting with the little-endian signature. -/
theorem magic_validation_witness :
    (job_tiff_file.f = some ⟨[73, 73, 42, 0, 8, 0, 0, 0], 0⟩ ∧
      ("rmc" : String).toList.contains 'r' = true ∧
      magic_ok ⟨[73, 73, 42, 0, 8, 0, 0, 0], 0⟩) ∧
    ∃ pre, (∀ e ∈ pre, e.is_client_open = false) ∧
      (magic_ok ⟨[73, 73, 42, 0, 8, 0, 0, 0], 0⟩ →
        (TIFF_Open codec_ok Session.initial "rmc" job_tiff_file).2.2.log =
          Session.initial.log ++ pre ++ [Event.client_open "rmc" job_tiff_file
            ((TIFF_Open codec_ok Session.initial "rmc" job_tiff_file).1.map TIFF.id)]) ∧
      (¬ magic_ok ⟨[73, 73, 42, 0, 8, 0, 0, 0], 0⟩ →
        (TIFF_Open codec_ok Session.initial "rmc" job_tiff_file).1 = none ∧
          (TIFF_Open codec_ok Session.initial "rmc" job_tiff_file).2.2.log =
            Session.initial.log ++ pre ∧
          (TIFF_Open codec_ok Session.initial "rmc" job_tiff_file).2.1 = job_tiff_file) :=
  ⟨⟨rfl, by decide, by decide⟩,
    magic_validation codec_ok Session.initial "rmc" job_tiff_file
      ⟨[73, 73, 42, 0, 8, 0, 0, 0], 0⟩ rfl (by decide)⟩

/-! ## The growth loop: termination and the capacity it reaches -/

theorem grow_loop_mono (fuel : Nat) : ∀ (a w s : Nat), grow_loop fuel a w = some s →
    ∀ fuel', fuel ≤ fuel' → grow_loop fuel' a w = some s := by
  induction fuel with
  | zero => intro a w s h; simp [grow_loop] at h
  | succ n ih =>
    intro a w s h fuel' hle
    obtain ⟨m, rfl⟩ : ∃ m, fuel' = m + 1 := ⟨fuel' - 1, by omega⟩
    rw [grow_loop] at h ⊢
    by_cases hc : a ≤ w
    · simp only [hc, if_true] at h ⊢
      exact ih _ _ _ h m (by omega)
    · simp only [hc, if_false] at h ⊢
      exact h

theorem grow_loop_exits (c w : Nat) (hc : 1 ≤ c) (hcl : c < 9223372036854775808)
    (hw : w < 9223372036854775808) :
    ∃ k, k ≤ 63 ∧
      (∀ fuel, 65 ≤ fuel → grow_loop fuel c w = some (c * 2 ^ k)) ∧
      (∀ j, j ≤ k → 0 < c * 2 ^ j ∧ c * 2 ^ j < 18446744073709551616) ∧
      w < c * 2 ^ k ∧ (∀ j, j < k → c * 2 ^ j ≤ w) := by
  have h63 : w < c * 2 ^ 63 := by
    have : (2 : Nat) ^ 63 = 9223372036854775808 := by norm_num
    rw [this]; omega
  obtain ⟨k, hk, hg, hlt, hall⟩ := grow_loop_spec 63 c w hc hw h63
  refine ⟨k, hk, fun fuel hf => grow_loop_mono 64 c w _ hg fuel (by omega), ?_, hlt, hall⟩
  intro j hj
  have hpos : 0 < c * 2 ^ j := Nat.mul_pos (by omega) (pow_pos (by norm_num) j)
  refine ⟨hpos, ?_⟩
  rcases Nat.lt_or_ge j k with h | h
  · have := hall j h; omega
  · have hjk : j = k := by omega
    subst hjk
    rcases Nat.eq_zero_or_pos j with h0 | h0
    · subst h0; simp; omega
    · obtain ⟨m, rfl⟩ : ∃ m, j = m + 1 := ⟨j - 1, by omega⟩
      have := hall m (by omega)
      have e : c * 2 ^ (m + 1) = c * 2 ^ m * 2 := by ring
      rw [e]
      omega

/-- C19: for a job with capacity `c ≥ 1` and a required size `0 ≤ w < 2^62`, the doubling loop
of `guarantee_write_buffer` exits after some number `k` of shifts (whatever fuel of at least 65
tests the model is given), no value `c * 2^j` on the way wraps modulo `2^64` or is 0, the
capacity reached is strictly greater than `w`, and when the loop is entered (`w > c`) at least
one shift is made, the new capacity is still a `long`, and `guarantee_write_buffer` returns. -/
theorem grow_loop_terminates (A : Allocator) (rj : tiff_job_t) (w : Int) (hty : rj.typed)
    (hcap : 1 ≤ rj.alloc) (hw0 : 0 ≤ w) (hw : w < 4611686018427387904) :
    ∃ k : Nat, k ≤ 63 ∧
      (∀ fuel, 65 ≤ fuel →
        grow_loop fuel (toULong rj.alloc) (toULong w) = some (rj.alloc.toNat * 2 ^ k)) ∧
      (∀ j, j ≤ k → 0 < rj.alloc.toNat * 2 ^ j ∧
        rj.alloc.toNat * 2 ^ j < 18446744073709551616) ∧
      w < ((rj.alloc.toNat * 2 ^ k : Nat) : Int) ∧
      (rj.alloc < w → 1 ≤ k ∧ rj.alloc.toNat * 2 ^ k < 9223372036854775808 ∧
        ∃ r, guarantee_write_buffer A rj w = some r) := by
  obtain ⟨_, _, hal, _⟩ := hty
  have ha : toULong rj.alloc = rj.alloc.toNat := toULong_of_nonneg (by omega) hal
  have hwl : isLong w := by unfold isLong; omega
  have hwn : toULong w = w.toNat := toULong_of_nonneg hw0 hwl
  obtain ⟨k, hk, hfuel, hwrap, hlt, hall⟩ := grow_loop_exits rj.alloc.toNat w.toNat
    (by omega) (by unfold isLong at hal; omega) (by omega)
  refine ⟨k, hk, by rw [ha, hwn]; exact hfuel, hwrap, by omega, ?_⟩
  intro hent
  have hk1 : 1 ≤ k := by
    rcases Nat.eq_zero_or_pos k with h0 | h0
    · subst h0; simp at hlt; omega
    · exact h0
  refine ⟨hk1, ?_, ?_⟩
  · obtain ⟨m, rfl⟩ : ∃ m, k = m + 1 := ⟨k - 1, by omega⟩
    have := hall m (by omega)
    have e : rj.alloc.toNat * 2 ^ (m + 1) = rj.alloc.toNat * 2 ^ m * 2 := by ring
    rw [e]
    omega
  · obtain ⟨k', _, _, _, _, hres⟩ := guarantee_write_buffer_grows A rj w hcap hal hwl hent
    rcases hres with ⟨h, _⟩ | ⟨d, _, h⟩
    · exact ⟨_, h⟩
    · exact ⟨_, h⟩

/-- Witness for C19: capacity 2 and required size 1000; the loop makes 9 shifts. -/
theorem grow_loop_terminates_witness :
    (job_small.typed ∧ grow_loop 65 (toULong job_small.alloc) (toULong 1000) = some 1024) ∧
    ∃ k : Nat, k ≤ 63 ∧
      (∀ fuel, 65 ≤ fuel →
        grow_loop fuel (toULong job_small.alloc) (toULong 1000)
          = some (job_small.alloc.toNat * 2 ^ k)) ∧
      (∀ j, j ≤ k → 0 < job_small.alloc.toNat * 2 ^ j ∧
        job_small.alloc.toNat * 2 ^ j < 18446744073709551616) ∧
      (1000 : Int) < ((job_small.alloc.toNat * 2 ^ k : Nat) : Int) ∧
      (job_small.alloc < 1000 → 1 ≤ k ∧ job_small.alloc.toNat * 2 ^ k < 9223372036854775808 ∧
        ∃ r, guarantee_write_buffer alloc_always job_small 1000 = some r) :=
  ⟨⟨by decide, by decide⟩,
    grow_loop_terminates alloc_always job_small 1000 (by decide) (by decide) (by decide)
      (by decide)⟩

/-- C16 (counterexample): with capacity 2 and required size 4, the least `k ≥ 1` with
`2 * 2^k ≥ 4` is 1, but a successful `guarantee_write_buffer` leaves the capacity at 8:
the loop runs while `new_alloc <= where`. -/
theorem guarantee_write_buffer_doubles_past_equal :
    (guarantee_write_buffer alloc_always job_small 4).map (fun r => (r.1, r.2.alloc))
      = some (1, 8) ∧
    (4 : Int) ≤ 2 * 2 ^ 1 ∧ (8 : Int) ≠ 2 * 2 ^ 1 := by
  refine ⟨by decide, by norm_num, by norm_num⟩

/-- C16 (amended): for a job with capacity `c ≥ 1` and a required size `w ≥ 0`, a
`guarantee_write_buffer(job, w)` whose reallocation is granted succeeds; it leaves the job as
it is when `w ≤ c`, and otherwise sets the capacity to `c * 2^k` for the least `k ≥ 1` such
that `c * 2^k > w`: every smaller power gives a capacity of at most `w`. -/
theorem guarantee_write_buffer_capacity (A : Allocator) (rj : tiff_job_t) (w : Int)
    (hty : rj.typed) (hcap : 1 ≤ rj.alloc) (hw0 : 0 ≤ w) (hw : w ≤ 9223372036854775807)
    (hgrow : growth_succeeds A rj w = true) :
    ∃ rj', guarantee_write_buffer A rj w = some (1, rj') ∧
      (w ≤ rj.alloc → rj' = rj) ∧
      (rj.alloc < w → ∃ k : Nat, 1 ≤ k ∧ rj'.alloc = rj.alloc * 2 ^ k ∧ w < rj.alloc * 2 ^ k ∧
        ∀ j : Nat, j < k → rj.alloc * 2 ^ j ≤ w) := by
  obtain ⟨_, _, hal, _⟩ := hty
  have hwl : isLong w := by unfold isLong; omega
  by_cases h : w ≤ rj.alloc
  · exact ⟨rj, guarantee_write_buffer_no_growth A rj w h, fun _ => rfl, fun h' => by omega⟩
  · have hlt : rj.alloc < w := by omega
    obtain ⟨k, hk1, hg, hwlt, hall, hres⟩ := guarantee_write_buffer_grows A rj w hcap hal hwl hlt
    have hcast : ∀ j : Nat, ((rj.alloc.toNat * 2 ^ j : Nat) : Int) = rj.alloc * 2 ^ j := by
      intro j
      push_cast
      rw [Int.toNat_of_nonneg (by omega)]
    have hsome : (realloc A rj.data (rj.alloc.toNat * 2 ^ k)).isSome = true := by
      unfold growth_succeeds at hgrow
      simpa [hlt, hg] using hgrow
    rcases hres with ⟨_, hnone⟩ | ⟨d, _, hgw⟩
    · rw [hnone] at hsome; simp at hsome
    · refine ⟨_, hgw, fun h' => absurd h' h, fun _ => ⟨k, hk1, hcast k, ?_, ?_⟩⟩
      · rw [← hcast k]; exact hwlt
      · intro j hj; rw [← hcast j]; exact hall j hj

/-- Witness for C16 as amended: capacity 2, required size 4, new capacity 8. -/
theorem guarantee_write_buffer_capacity_witness :
    (job_small.typed ∧ growth_succeeds alloc_always job_small 4 = true) ∧
    ∃ rj', guarantee_write_buffer alloc_always job_small 4 = some (1, rj') ∧
      ((4 : Int) ≤ job_small.alloc → rj' = job_small) ∧
      (job_small.alloc < 4 → ∃ k : Nat, 1 ≤ k ∧ rj'.alloc = job_small.alloc * 2 ^ k ∧
        4 < job_small.alloc * 2 ^ k ∧ ∀ j : Nat, j < k → job_small.alloc * 2 ^ j ≤ 4) :=
  ⟨⟨by decide, by decide⟩,
    guarantee_write_buffer_capacity alloc_always job_small 4 (by decide) (by decide) (by decide)
      (by decide) (by decide)⟩

/-! ## Failing seeks and writes -/

theorem TIFFSeekProc_resolved (A : Allocator) (rj : tiff_job_t) (k whence T : Int)
    (hty : rj.typed) (hf : rj.f = none) (hk : isLong k)
    (hres : (whence = SEEK_SET ∧ T = k) ∨ (whence = SEEK_CUR ∧ T = rj.ptr + k) ∨
      (whence = SEEK_END ∧ T = rj.len + k))
    (hT0 : 0 ≤ T) (hTmax : T ≤ 9223372036854775807) :
    TIFFSeekProc_ A rj (toULong k) whence = TIFFSeekProc_ A rj T.toNat SEEK_SET := by
  obtain ⟨hp, hl, ha, hd⟩ := hty
  rcases hres with ⟨hw, hT⟩ | ⟨hw, hT⟩ | ⟨hw, hT⟩
  · subst hw
    have : toULong k = T.toNat := by unfold toULong; omega
    rw [this]
  · subst hw
    rw [TIFFSeekProc_cur A rj _ hf]
    have : (toULong k + toULong rj.ptr) % 18446744073709551616 = T.toNat := by
      unfold toULong; unfold isLong at hk hp; omega
    rw [this]
  · subst hw
    rw [TIFFSeekProc_end A rj _ hf]
    have : (toULong k + toULong rj.len) % 18446744073709551616 = T.toNat := by
      unfold toULong; unfold isLong at hk hl; omega
    rw [this]

theorem growth_fails_iff (A : Allocator) (rj : tiff_job_t) (w : Int)
    (h : growth_succeeds A rj w = false) :
    rj.alloc < w ∧ guarantee_write_buffer A rj w = some (0, rj) := by
  unfold growth_succeeds at h
  by_cases hlt : w > rj.alloc
  · simp only [hlt, if_true] at h
    refine ⟨hlt, ?_⟩
    unfold guarantee_write_buffer
    simp only [hlt, if_true]
    cases hg : grow_loop 65 (toULong rj.alloc) (toULong w) with
    | none => rw [hg] at h; simp at h
    | some s =>
      rw [hg] at h
      simp only at h ⊢
      cases hr : realloc A rj.data s with
      | none => rfl
      | some d => rw [hr] at h; simp at h
  · simp [hlt] at h

/-- A sparse seek whose reallocation is refused fails and changes nothing. -/
theorem TIFFSeekProc_set_refused (A : Allocator) (rj : tiff_job_t) (o : Nat)
    (hf : rj.f = none) (hl : isLong rj.len) (ha : isLong rj.alloc) (h0 : 0 ≤ rj.len)
    (hcap : 1 ≤ rj.alloc) (hlo : rj.len < o) (ho : (o : Int) ≤ 9223372036854775807)
    (hfail : growth_succeeds A rj o = false) :
    TIFFSeekProc_ A rj o SEEK_SET = some ⟨SEEK_FAIL, rj, []⟩ := by
  obtain ⟨hao, hg⟩ := growth_fails_iff A rj o hfail
  have hlu : toULong rj.len = rj.len.toNat := toULong_of_nonneg h0 hl
  have hau : toULong rj.alloc = rj.alloc.toNat := toULong_of_nonneg (by omega) ha
  have h1 : ¬ rj.alloc = 0 ∧ toULong rj.len < o := ⟨by omega, by rw [hlu]; omega⟩
  have h2 : o ≥ toULong rj.alloc := by rw [hau]; omega
  unfold TIFFSeekProc_
  simp only [hf, SEEK_SET, SEEK_CUR, SEEK_END, Int.reduceEq, Int.reduceNe, ↓reduceIte, ne_eq,
    not_true_eq_false]
  simp only [h1, and_self, if_true, h2, ↓reduceIte, not_false_eq_true,
    toLong_of_lt (show o < 9223372036854775808 by omega), hg]

/-- A seek past the data of a job without capacity fails with the "data end" warning. -/
theorem TIFFSeekProc_set_beyond (A : Allocator) (rj : tiff_job_t) (o : Nat)
    (hf : rj.f = none) (hl : isLong rj.len) (h0 : 0 ≤ rj.len) (ha : rj.alloc = 0)
    (hlo : rj.len < o) :
    TIFFSeekProc_ A rj o SEEK_SET =
      some ⟨SEEK_FAIL, rj, ["libtiff attempted to seek beyond the data end"]⟩ := by
  have hlu : toULong rj.len = rj.len.toNat := toULong_of_nonneg h0 hl
  have h2 : o > toULong rj.len := by rw [hlu]; omega
  unfold TIFFSeekProc_
  simp only [hf, SEEK_SET, SEEK_CUR, SEEK_END, Int.reduceEq, Int.reduceNe, ↓reduceIte, ne_eq,
    not_true_eq_false]
  simp only [ha, not_true_eq_false, false_and, if_false, ↓reduceIte, h2, if_true]

/-- C14: on a buffer-backed job, a write that needs the block to grow and whose reallocation
fails returns 0, and a seek to a target past the data that needs the block to grow and whose
reallocation fails returns the failure value `(toff_t) -1`; in both cases the job (position,
length, capacity, block) is exactly what it was. -/
theorem exhaustion_is_atomic (A : Allocator) (rj : tiff_job_t) (buf : List Byte)
    (length k whence T : Int) (hty : rj.typed) (hf : rj.f = none) (hcap : 1 ≤ rj.alloc)
    (hl0 : 0 ≤ rj.len) (hk : isLong k)
    (hres : (whence = SEEK_SET ∧ T = k) ∨ (whence = SEEK_CUR ∧ T = rj.ptr + k) ∨
      (whence = SEEK_END ∧ T = rj.len + k))
    (hlT : rj.len < T) (hTmax : T ≤ 9223372036854775807) :
    (growth_succeeds A rj (wrapLong (rj.ptr + length)) = false →
      TIFFWriteProc_ A rj buf length = some (0, rj)) ∧
    (growth_succeeds A rj T = false →
      TIFFSeekProc_ A rj (toULong k) whence = some ⟨SEEK_FAIL, rj, []⟩) := by
  constructor
  · intro hfail
    obtain ⟨_, hg⟩ := growth_fails_iff A rj _ hfail
    unfold TIFFWriteProc_
    simp only [hf, hg, if_true]
  · intro hfail
    have hT0 : 0 ≤ T := by omega
    have hTn : ((T.toNat : Nat) : Int) = T := Int.toNat_of_nonneg hT0
    rw [TIFFSeekProc_resolved A rj k whence T hty hf hk hres hT0 hTmax]
    exact TIFFSeekProc_set_refused A rj T.toNat hf hty.2.1 hty.2.2.1 hl0 hcap (by omega)
      (by omega) (by rw [hTn]; exact hfail)

/-- Witness for C14: a write of three bytes at position 1 of a two-byte block, and a seek to
1000, both with every reallocation refused. -/
theorem exhaustion_is_atomic_witness :
    (job_small.typed ∧
      growth_succeeds alloc_never job_small (wrapLong (job_small.ptr + 3)) = false ∧
      growth_succeeds alloc_never job_small 1000 = false) ∧
    ((growth_succeeds alloc_never job_small (wrapLong (job_small.ptr + 3)) = false →
      TIFFWriteProc_ alloc_never job_small [7, 8, 9] 3 = some (0, job_small)) ∧
    (growth_succeeds alloc_never job_small 1000 = false →
      TIFFSeekProc_ alloc_never job_small (toULong 1000) SEEK_SET
        = some ⟨SEEK_FAIL, job_small, []⟩)) :=
  ⟨⟨by decide, by decide, by decide⟩,
    exhaustion_is_atomic alloc_never job_small [7, 8, 9] 3 1000 SEEK_SET 1000 (by decide) rfl
      (by decide) (by decide) (by decide) (Or.inl ⟨rfl, rfl⟩) (by decide) (by decide)⟩

theorem growth_succeeds_of_le (A : Allocator) (rj : tiff_job_t) (w : Int) (h : w ≤ rj.alloc) :
    growth_succeeds A rj w = true := by
  unfold growth_succeeds
  simp [not_lt.mpr h]

/-- C17: on a buffer-backed job with `0 ≤ length` and capacity `≥ 0`, for a valid `whence` and a
resolved target `T ≥ 0`, the seek returns; it succeeds (returns `T` and sets the position to
`T`) exactly when `T ≤ length`, or the capacity is at least 1 and any needed growth succeeds;
otherwise it returns the failure value and leaves the job unchanged. In particular with
capacity 0 a seek to `T > length` fails and changes nothing, and with capacity at least 1 the
"seek beyond the data end" warning is never raised. -/
theorem seek_success_condition (A : Allocator) (rj : tiff_job_t) (k whence T : Int)
    (hty : rj.typed) (hf : rj.f = none) (hl0 : 0 ≤ rj.len) (ha0 : 0 ≤ rj.alloc)
    (hblock : 1 ≤ rj.alloc → (rj.data.length : Int) = rj.alloc) (hk : isLong k)
    (hres : (whence = SEEK_SET ∧ T = k) ∨ (whence = SEEK_CUR ∧ T = rj.ptr + k) ∨
      (whence = SEEK_END ∧ T = rj.len + k))
    (hT0 : 0 ≤ T) (hTmax : T ≤ 9223372036854775807) :
    ∃ r, TIFFSeekProc_ A rj (toULong k) whence = some r ∧
      ((r.ret = T.toNat ∧ r.job.ptr = T) ↔
        (T ≤ rj.len ∨ (1 ≤ rj.alloc ∧ growth_succeeds A rj T = true))) ∧
      (¬ (T ≤ rj.len ∨ (1 ≤ rj.alloc ∧ growth_succeeds A rj T = true)) →
        r.ret = SEEK_FAIL ∧ r.job = rj) ∧
      (rj.alloc = 0 → rj.len < T → r.ret = SEEK_FAIL ∧ r.job = rj) ∧
      (1 ≤ rj.alloc → "libtiff attempted to seek beyond the data end" ∉ r.warnings) := by
  have hl := hty.2.1
  have ha := hty.2.2.1
  have hTn : ((T.toNat : Nat) : Int) = T := Int.toNat_of_nonneg hT0
  have hne : SEEK_FAIL ≠ T.toNat := by unfold SEEK_FAIL; omega
  rw [TIFFSeekProc_resolved A rj k whence T hty hf hk hres hT0 hTmax]
  by_cases hle : T ≤ rj.len
  · refine ⟨_, TIFFSeekProc_set_within A rj T.toNat hf hl hl0 (by omega), ?_, ?_, ?_, ?_⟩
    · exact ⟨fun _ => Or.inl hle, fun _ => ⟨rfl, hTn⟩⟩
    · intro h; exact absurd (Or.inl hle) h
    · intro _ h; omega
    · intro _; simp
  · by_cases hz : rj.alloc = 0
    · refine ⟨_, TIFFSeekProc_set_beyond A rj T.toNat hf hl hl0 hz (by omega), ?_, ?_, ?_, ?_⟩
      · constructor
        · intro h; exact absurd h.1 hne
        · rintro (h | ⟨h, _⟩)
          · exact absurd h hle
          · omega
      · intro _; exact ⟨rfl, rfl⟩
      · intro _ _; exact ⟨rfl, rfl⟩
      · intro h; omega
    · have hcap : 1 ≤ rj.alloc := by omega
      have hb := hblock hcap
      by_cases hlt : T < rj.alloc
      · have hgs := growth_succeeds_of_le A rj T (by omega)
        refine ⟨_, TIFFSeekProc_set_zero_fill A rj T.toNat hf hl ha hl0 hb (by omega) (by omega),
          ?_, ?_, ?_, ?_⟩
        · exact ⟨fun _ => Or.inr ⟨hcap, hgs⟩, fun _ => ⟨rfl, hTn⟩⟩
        · intro h; exact absurd (Or.inr ⟨hcap, hgs⟩) h
        · intro h; exact absurd h hz
        · intro _; simp
      · cases hgs : growth_succeeds A rj T with
        | true =>
          obtain ⟨rj1, hg, _⟩ := guarantee_write_buffer_ok A rj T hcap ha
            (by unfold isLong; omega) hb hgs
          rw [← hTn] at hg
          refine ⟨_, TIFFSeekProc_set_grow A rj T.toNat hf hl ha hl0 hcap (by omega) (by omega)
            (by omega) rj1 hg, ?_, ?_, ?_, ?_⟩
          · exact ⟨fun _ => Or.inr ⟨hcap, rfl⟩, fun _ => ⟨rfl, hTn⟩⟩
          · intro h; exact absurd (Or.inr ⟨hcap, rfl⟩) h
          · intro h; exact absurd h hz
          · intro _; simp
        | false =>
          refine ⟨_, TIFFSeekProc_set_refused A rj T.toNat hf hl ha hl0 hcap (by omega)
            (by omega) (by rw [hTn]; exact hgs), ?_, ?_, ?_, ?_⟩
          · constructor
            · intro h; exact absurd h.1 hne
            · rintro (h | ⟨_, h⟩)
              · exact absurd h hle
              · exact absurd h (by simp)
          · intro _; exact ⟨rfl, rfl⟩
          · intro h; exact absurd h hz
          · intro _; simp

/-- Witness for C17: a seek by 5 from position 2 on the read-only job of length 3. -/
theorem seek_success_condition_witness :
    (job_read_only.typed ∧ (1 ≤ job_read_only.alloc →
      (job_read_only.data.length : Int) = job_read_only.alloc)) ∧
    ∃ r, TIFFSeekProc_ alloc_always job_read_only (toULong 5) SEEK_CUR = some r ∧
      ((r.ret = (7 : Int).toNat ∧ r.job.ptr = 7) ↔
        ((7 : Int) ≤ job_read_only.len ∨
          (1 ≤ job_read_only.alloc ∧ growth_succeeds alloc_always job_read_only 7 = true))) ∧
      (¬ ((7 : Int) ≤ job_read_only.len ∨
          (1 ≤ job_read_only.alloc ∧ growth_succeeds alloc_always job_read_only 7 = true)) →
        r.ret = SEEK_FAIL ∧ r.job = job_read_only) ∧
      (job_read_only.alloc = 0 → job_read_only.len < 7 →
        r.ret = SEEK_FAIL ∧ r.job = job_read_only) ∧
      (1 ≤ job_read_only.alloc →
        "libtiff attempted to seek beyond the data end" ∉ r.warnings) :=
  ⟨⟨by decide, by decide⟩,
    seek_success_condition alloc_always job_read_only 5 SEEK_CUR 7 (by decide) rfl (by decide)
      (by decide) (by decide) (by decide) (Or.inr (Or.inl ⟨rfl, by decide⟩)) (by decide)
      (by decide)⟩

/-- C18 (failing input): on the job of capacity 2 at position 1 with length 2, the seek to
offset -1 from the start (the `toff_t` value `2^64 - 1`) passes the test
`rj->len < offset`, goes through `guarantee_write_buffer(rj, -1)`, which has nothing to do,
and sets both the length and the position to -1, while returning `(toff_t) -1`. -/
theorem seek_negative_target_breaks_bounds :
    TIFFSeekProc_ alloc_always job_small (toULong (-1)) SEEK_SET
      = some ⟨SEEK_FAIL, ⟨none, -1, -1, 2, [5, 6]⟩, []⟩ := by decide

/-! ## Refused opens and the close callback -/

/-- C11 (counterexample): with the handle 1 active, a read-mode open of a file that is not a
TIFF returns null, but `last_tiff` does not keep its value: the previous handle has been closed
(`TIFFClose` on handle 1 and the `fclose` of its file are in the log) and `last_tiff` is
null. -/
theorem bad_magic_open_closes_previous :
    session_open.last_tiff = some ⟨1, job_tiff_file⟩ ∧
    (TIFF_Open codec_ok session_open "rmc" job_zip_file).1 = none ∧
    (TIFF_Open codec_ok session_open "rmc" job_zip_file).2.2.last_tiff = none ∧
    (TIFF_Open codec_ok session_open "rmc" job_zip_file).2.2.last_tiff ≠ session_open.last_tiff ∧
    (TIFF_Open codec_ok session_open "rmc" job_zip_file).2.2.log
      = session_open.log ++ [Event.close 1, Event.fclose] := by
  refine ⟨by decide, by decide, by decide, by decide, by decide⟩

/-- C11 (amended): for every prior state of `last_tiff` and every file-backed job whose four
bytes at the stream position match neither signature, `TIFF_Open` in read mode returns null,
invokes no codec open (no handle is created) and leaves the job as it was; a previously active
handle is closed through `TIFFClose` before the check, so `last_tiff` is null after the call
(unchanged when it was null before). -/
theorem bad_magic_open (C : Codec) (s : Session) (mode : String) (rj : tiff_job_t) (fl : FILE)
    (hf : rj.f = some fl) (hmode : mode.toList.contains 'r' = true) (hbad : ¬ magic_ok fl) :
    (TIFF_Open C s mode rj).1 = none ∧ (TIFF_Open C s mode rj).2.1 = rj ∧
    (TIFF_Open C s mode rj).2.2.last_tiff = none ∧
    (s.last_tiff = none → (TIFF_Open C s mode rj).2.2.last_tiff = s.last_tiff) ∧
    ∃ pre, (TIFF_Open C s mode rj).2.2.log = s.log ++ pre ∧
      (∀ e ∈ pre, e.is_client_open = false) ∧
      (∀ t, s.last_tiff = some t → Event.close t.id ∈ pre) := by
  obtain ⟨hlast, pre, hlog, hpre, hclose, _⟩ := before_check_spec s
  rw [TIFF_Open_file_read C s mode rj fl hf hmode]
  simp only [hbad, if_false]
  exact ⟨trivial, trivial, hlast, fun h => by rw [hlast, h], pre, hlog, hpre, hclose⟩

/-- Witness for C11 as amended: the refused open of the counterexample. -/
theorem bad_magic_open_witness :
    (job_zip_file.f = some ⟨[80, 75, 3, 4, 20, 0], 0⟩ ∧
      ("rmc" : String).toList.contains 'r' = true ∧ ¬ magic_ok ⟨[80, 75, 3, 4, 20, 0], 0⟩) ∧
    ((TIFF_Open codec_ok session_open "rmc" job_zip_file).1 = none ∧
    (TIFF_Open codec_ok session_open "rmc" job_zip_file).2.1 = job_zip_file ∧
    (TIFF_Open codec_ok session_open "rmc" job_zip_file).2.2.last_tiff = none ∧
    (session_open.last_tiff = none →
      (TIFF_Open codec_ok session_open "rmc" job_zip_file).2.2.last_tiff
        = session_open.last_tiff) ∧
    ∃ pre, (TIFF_Open codec_ok session_open "rmc" job_zip_file).2.2.log
        = session_open.log ++ pre ∧
      (∀ e ∈ pre, e.is_client_open = false) ∧
      (∀ t, session_open.last_tiff = some t → Event.close t.id ∈ pre)) :=
  ⟨⟨rfl, by decide, by decide⟩,
    bad_magic_open codec_ok session_open "rmc" job_zip_file ⟨[80, 75, 3, 4, 20, 0], 0⟩ rfl
      (by decide) (by decide)⟩

/-- C13 (counterexample): after the close callback on the buffer-backed job of length 2 and
capacity 2, the block is released and the capacity is 0, but the length is still 2 and
`TIFFSizeProc_` on the closed job returns 2; and on the read-only job (capacity 0) the close
callback releases nothing: the block and the length 3 stay. -/
theorem close_keeps_length :
    (TIFFCloseProc_ session_open job_small).2.1 = ⟨none, 1, 2, 0, []⟩ ∧
    (TIFFSizeProc_ (TIFFCloseProc_ session_open job_small).2.1).1 = 2 ∧
    (TIFFCloseProc_ session_open job_read_only).2.1 = job_read_only ∧
    (TIFFSizeProc_ (TIFFCloseProc_ session_open job_read_only).2.1).1 = 3 := by
  refine ⟨by decide, by decide, by decide, by decide⟩

/-- C13 (amended): for every buffer-backed job, `TIFFCloseProc_` returns 0 and leaves the
active handle null; when the capacity is not 0 the block is released (`data` is null) and the
capacity becomes 0; when the capacity is 0 the job is untouched; the length and the position
keep their values in both cases, so `TIFFSizeProc_` on the closed job returns the length the
job had. -/
theorem close_buffer_job (s : Session) (rj : tiff_job_t) (hf : rj.f = none) :
    (TIFFCloseProc_ s rj).1 = 0 ∧ (TIFFCloseProc_ s rj).2.2.last_tiff = none ∧
    (rj.alloc ≠ 0 → (TIFFCloseProc_ s rj).2.1.data = [] ∧ (TIFFCloseProc_ s rj).2.1.alloc = 0) ∧
    (rj.alloc = 0 → (TIFFCloseProc_ s rj).2.1 = rj) ∧
    (TIFFCloseProc_ s rj).2.1.len = rj.len ∧ (TIFFCloseProc_ s rj).2.1.ptr = rj.ptr ∧
    (TIFFCloseProc_ s rj).2.1.f = none ∧
    (TIFFSizeProc_ (TIFFCloseProc_ s rj).2.1).1 = toULong rj.len := by
  unfold TIFFCloseProc_ TIFFSizeProc_
  by_cases ha : rj.alloc = 0
  · simp [hf, ha]
  · simp [hf, ha]

/-- Witness for C13 as amended: the close callback on the job of capacity 2. -/
theorem close_buffer_job_witness :
    job_small.f = none ∧
    ((TIFFCloseProc_ session_open job_small).1 = 0 ∧
    (TIFFCloseProc_ session_open job_small).2.2.last_tiff = none ∧
    (job_small.alloc ≠ 0 → (TIFFCloseProc_ session_open job_small).2.1.data = [] ∧
      (TIFFCloseProc_ session_open job_small).2.1.alloc = 0) ∧
    (job_small.alloc = 0 → (TIFFCloseProc_ session_open job_small).2.1 = job_small) ∧
    (TIFFCloseProc_ session_open job_small).2.1.len = job_small.len ∧
    (TIFFCloseProc_ session_open job_small).2.1.ptr = job_small.ptr ∧
    (TIFFCloseProc_ session_open job_small).2.1.f = none ∧
    (TIFFSizeProc_ (TIFFCloseProc_ session_open job_small).2.1).1 = toULong job_small.len) :=
  ⟨rfl, close_buffer_job session_open job_small rfl⟩

/-! ## The fatal-error handler -/

theorem TIFFErrorHandler_reentered (ce : TIFF → List (String × String)) (depth : Nat)
    (s : Session) (module formatted : String) (hflag : s.err_reenter = true) :
    TIFFErrorHandler_ ce (depth + 1) s module formatted = some ⟨s, [], none⟩ := by
  rw [TIFFErrorHandler_]
  simp only [hflag, if_true]

theorem report_errors_reentered (ce : TIFF → List (String × String)) (depth : Nat)
    (errs : List (String × String)) : ∀ s : Session, s.err_reenter = true →
    report_errors (TIFFErrorHandler_ ce (depth + 1)) errs s = some ⟨s, [], none⟩ := by
  induction errs with
  | nil => intro s _; rfl
  | cons e rest ih =>
    intro s hflag
    rw [report_errors, TIFFErrorHandler_reentered ce depth s e.1 e.2 hflag]
    simp only [Option.isSome_none, Bool.false_eq_true, if_false, ih s hflag, List.append_nil]

theorem TIFFErrorHandler_open (ce : TIFF → List (String × String)) (depth : Nat)
    (s : Session) (t : TIFF) (module formatted : String) (hopen : s.last_tiff = some t)
    (hflag : s.err_reenter = false) :
    TIFFErrorHandler_ ce (depth + 2) s module formatted =
      some ⟨{ (TIFFCloseProc_ { s with err_reenter := true,
                                       log := s.log ++ [Event.close t.id] } t.job).2.2 with
              err_reenter := false },
        ["The tiff file you are attempting to read from is causing the " ++
          "following problem: \"" ++ module ++ ": " ++ vsnprintf_txtbuf formatted ++ "\""],
        some (module ++ ": " ++ vsnprintf_txtbuf formatted)⟩ := by
  rw [TIFFErrorHandler_]
  simp only [hflag, Bool.false_eq_true, if_false, hopen, TIFFClose_reporting]
  rw [report_errors_reentered ce depth (ce t) _ rfl]
  simp only [Option.isSome_none, Bool.false_eq_true, if_false]

theorem TIFFErrorHandler_idle (ce : TIFF → List (String × String)) (depth : Nat)
    (s : Session) (module formatted : String) (hnone : s.last_tiff = none)
    (hflag : s.err_reenter = false) :
    TIFFErrorHandler_ ce (depth + 1) s module formatted =
      some ⟨{ s with err_reenter := false },
        ["The tiff file you are attempting to read from is causing the " ++
          "following problem: \"" ++ module ++ ": " ++ vsnprintf_txtbuf formatted ++ "\""],
        some (module ++ ": " ++ vsnprintf_txtbuf formatted)⟩ := by
  rw [TIFFErrorHandler_]
  simp only [hflag, Bool.false_eq_true, if_false, hnone, Option.isSome_none]

theorem TIFFCloseProc_log (s : Session) (rj : tiff_job_t) :
    (TIFFCloseProc_ s rj).2.2.last_tiff = none ∧
    (TIFFCloseProc_ s rj).2.2.err_reenter = s.err_reenter ∧
    ∃ tail, (TIFFCloseProc_ s rj).2.2.log = s.log ++ tail ∧
      (∀ e ∈ tail, e = Event.fclose ∨ e = Event.free) := by
  unfold TIFFCloseProc_
  cases hf : rj.f with
  | some fl => exact ⟨rfl, rfl, [Event.fclose], rfl, by simp⟩
  | none =>
    by_cases ha : rj.alloc ≠ 0
    · simp only [ha, ne_eq, not_false_eq_true, if_true]
      exact ⟨trivial, trivial, [Event.free], rfl, by simp⟩
    · simp only [ha, if_false]
      exact ⟨trivial, trivial, [], by simp, by simp⟩

/-- C12: from a session with an active handle `t` and the re-entrancy flag clear, one run of
`TIFFErrorHandler_` (whatever errors the codec reports while closing, and given room for two
levels of nesting) calls `TIFFClose` on `t` exactly once (the log gains that one close and the
release of the job's file or block), leaves `last_tiff` null and the flag clear, and leaves
through `Rf_error` with the module and the message; an invocation with the flag set, as the
ones nested in that close are, returns at once with the session as it is, no warning and no
error; and a second invocation after the first adds nothing to the log. -/
theorem fatal_error_cleanup (ce : TIFF → List (String × String)) (depth : Nat) (s : Session)
    (t : TIFF) (module formatted module2 formatted2 : String) (hd : 2 ≤ depth)
    (hopen : s.last_tiff = some t) (hflag : s.err_reenter = false) :
    ∃ o, TIFFErrorHandler_ ce depth s module formatted = some o ∧
      o.session.last_tiff = none ∧ o.session.err_reenter = false ∧
      o.raised = some (module ++ ": " ++ vsnprintf_txtbuf formatted) ∧
      (∃ tail, o.session.log = s.log ++ Event.close t.id :: tail ∧
        ∀ e ∈ tail, e = Event.fclose ∨ e = Event.free) ∧
      (∀ s2 : Session, s2.err_reenter = true →
        TIFFErrorHandler_ ce depth s2 module2 formatted2 = some ⟨s2, [], none⟩) ∧
      (∃ o2, TIFFErrorHandler_ ce depth o.session module2 formatted2 = some o2 ∧
        o2.session.log = o.session.log ∧ o2.session.last_tiff = none ∧
        o2.session.err_reenter = false) := by
  obtain ⟨d, rfl⟩ : ∃ d, depth = d + 2 := ⟨depth - 2, by omega⟩
  obtain ⟨hlast, _, tail, hlog, htail⟩ := TIFFCloseProc_log
    { s with err_reenter := true, log := s.log ++ [Event.close t.id] } t.job
  refine ⟨_, TIFFErrorHandler_open ce d s t module formatted hopen hflag, hlast, rfl, rfl,
    ⟨tail, ?_, htail⟩, ?_, ?_⟩
  · show (TIFFCloseProc_ _ t.job).2.2.log = _
    rw [hlog]
    simp
  · intro s2 h2
    exact TIFFErrorHandler_reentered ce (d + 1) s2 module2 formatted2 h2
  · refine ⟨_, TIFFErrorHandler_idle ce (d + 1) _ module2 formatted2 hlast rfl, rfl, hlast, rfl⟩

/-- Witness for C12: a fatal error while handle 1 is active, with a codec that reports two
more errors while it closes. -/
theorem fatal_error_cleanup_witness :
    (session_open.last_tiff = some ⟨1, job_tiff_file⟩ ∧ session_open.err_reenter = false) ∧
    ∃ o, TIFFErrorHandler_ noisy_close 2 session_open "TIFFReadDirectory" "bad IFD" = some o ∧
      o.session.last_tiff = none ∧ o.session.err_reenter = false ∧
      o.raised = some ("TIFFReadDirectory" ++ ": " ++ vsnprintf_txtbuf "bad IFD") ∧
      (∃ tail, o.session.log = session_open.log ++ Event.close (TIFF.mk 1 job_tiff_file).id :: tail ∧
        ∀ e ∈ tail, e = Event.fclose ∨ e = Event.free) ∧
      (∀ s2 : Session, s2.err_reenter = true →
        TIFFErrorHandler_ noisy_close 2 s2 "TIFFClose" "cannot flush" = some ⟨s2, [], none⟩) ∧
      (∃ o2, TIFFErrorHandler_ noisy_close 2 o.session "TIFFClose" "cannot flush" = some o2 ∧
        o2.session.log = o.session.log ∧ o2.session.last_tiff = none ∧
        o2.session.err_reenter = false) :=
  ⟨⟨by decide, by decide⟩,
    fatal_error_cleanup noisy_close 2 session_open ⟨1, job_tiff_file⟩ "TIFFReadDirectory"
      "bad IFD" "TIFFClose" "cannot flush" (by decide) (by decide) (by decide)⟩

/-! ## The warning handler -/

theorem strstr_found_iff (needle : List Char) : ∀ hay : List Char,
    strstr_found hay needle = true ↔ needle <:+: hay := by
  intro hay
  induction hay with
  | nil => simp [strstr_found, List.isEmpty_iff]
  | cons c cs ih =>
    rw [strstr_found, Bool.or_eq_true, List.isPrefixOf_iff_prefix, ih, List.infix_cons_iff]

theorem vsnprintf_txtbuf_short (formatted : String) (h : formatted.length ≤ 2047) :
    vsnprintf_txtbuf formatted = formatted := by
  show String.mk (List.take 2047 formatted.data) = formatted
  rw [List.take_of_length_le h]

theorem take_replicate_snoc (n : Nat) (a b : Char) :
    List.take n (List.replicate n a ++ [b]) = List.replicate n a := by
  rw [List.take_append_of_le_length (by simp), List.take_of_length_le (by simp)]

theorem vsnprintf_txtbuf_long_warning :
    vsnprintf_txtbuf long_warning = String.mk (List.replicate 2047 'a') :=
  congrArg String.mk (take_replicate_snoc 2047 'a' 'b')

theorem strstr_found_replicate (n : Nat) (a : Char) (needle : List Char) (c : Char)
    (hc : c ∈ needle) (hne : c ≠ a) : strstr_found (List.replicate n a) needle = false := by
  cases h : strstr_found (List.replicate n a) needle with
  | false => rfl
  | true =>
    have hin := (strstr_found_iff needle _).mp h
    have := List.eq_of_mem_replicate (hin.subset hc)
    exact absurd this hne

/-- C15 (counterexample): a warning whose text contains `unknown field with tag` in lower case
is forwarded; the codec's own text `Unknown field with tag ...`, which contains neither of the
two patterns as the claim spells them, raises no warning; and a text of 2048 characters is
forwarded without its last character. -/
theorem warning_filter_is_case_sensitive :
    (strstr_found "unknown field with tag 50838 (0xc696) encountered".toList
        "unknown field with tag".toList = true ∧
      TIFFWarningHandler_ "TIFFReadDirectory" "unknown field with tag 50838 (0xc696) encountered"
        = some "TIFFReadDirectory: unknown field with tag 50838 (0xc696) encountered") ∧
    (strstr_found "Unknown field with tag 50838 (0xc696) encountered".toList
        "unknown field with tag".toList = false ∧
      strstr_found "Unknown field with tag 50838 (0xc696) encountered".toList
        "defining non-color channels as extra samples".toList = false ∧
      TIFFWarningHandler_ "TIFFReadDirectory" "Unknown field with tag 50838 (0xc696) encountered"
        = none) ∧
    (TIFFWarningHandler_ "m" long_warning
        = some ("m" ++ ": " ++ String.mk (List.replicate 2047 'a')) ∧
      long_warning ≠ String.mk (List.replicate 2047 'a')) := by
  refine ⟨⟨by decide, by decide⟩, ⟨by decide, by decide, by decide⟩, ?_, ?_⟩
  · unfold TIFFWarningHandler_
    simp only [vsnprintf_txtbuf_long_warning]
    have h1 : strstr_found (List.replicate 2047 'a') "Unknown field with tag".toList = false :=
      strstr_found_replicate 2047 'a' _ 'U' (by decide) (by decide)
    have h2 : strstr_found (List.replicate 2047 'a')
        "Defining non-color channels as ExtraSamples.".toList = false :=
      strstr_found_replicate 2047 'a' _ 'D' (by decide) (by decide)
    show (if strstr_found (List.replicate 2047 'a') "Unknown field with tag".toList = false ∧
        strstr_found (List.replicate 2047 'a')
          "Defining non-color channels as ExtraSamples.".toList = false then _ else _) = _
    rw [if_pos ⟨h1, h2⟩]
  · intro h
    have h1 : long_warning.length = 2047 + 1 := by
      show (List.replicate 2047 'a' ++ ['b']).length = 2047 + 1
      rw [List.length_append, List.length_replicate]
      rfl
    have h2 : (String.mk (List.replicate 2047 'a')).length = 2047 := by
      show (List.replicate 2047 'a').length = 2047
      rw [List.length_replicate]
    rw [h, h2] at h1
    omega

/-- C15 (amended): for every formatted warning text `m`, with `t` the first 2047 characters of
`m` (`t = m` when `m` has at most 2047 characters), `TIFFWarningHandler_` raises the host
warning `module: t` if and only if `t` contains neither `Unknown field with tag` nor
`Defining non-color channels as ExtraSamples.` (as spelled, case included); a text containing
either raises no warning at all. -/
theorem warning_filter (module m : String) :
    (TIFFWarningHandler_ module m = some (module ++ ": " ++ vsnprintf_txtbuf m) ↔
      ¬ ("Unknown field with tag".toList <:+: (vsnprintf_txtbuf m).toList) ∧
      ¬ ("Defining non-color channels as ExtraSamples.".toList <:+:
          (vsnprintf_txtbuf m).toList)) ∧
    (("Unknown field with tag".toList <:+: (vsnprintf_txtbuf m).toList ∨
        "Defining non-color channels as ExtraSamples.".toList <:+:
          (vsnprintf_txtbuf m).toList) →
      TIFFWarningHandler_ module m = none) ∧
    (m.length ≤ 2047 → vsnprintf_txtbuf m = m) := by
  have e1 := strstr_found_iff "Unknown field with tag".toList (vsnprintf_txtbuf m).toList
  have e2 := strstr_found_iff "Defining non-color channels as ExtraSamples.".toList
    (vsnprintf_txtbuf m).toList
  refine ⟨?_, ?_, vsnprintf_txtbuf_short m⟩
  · unfold TIFFWarningHandler_
    simp only
    rw [← e1, ← e2]
    by_cases h : strstr_found (vsnprintf_txtbuf m).toList "Unknown field with tag".toList = false ∧
        strstr_found (vsnprintf_txtbuf m).toList
          "Defining non-color channels as ExtraSamples.".toList = false
    · rw [if_pos h]
      simp only [true_iff]
      exact ⟨by rw [h.1]; simp, by rw [h.2]; simp⟩
    · rw [if_neg h]
      constructor
      · intro hno; cases hno
      · intro hh
        exact absurd ⟨by simpa using hh.1, by simpa using hh.2⟩ h
  · intro hor
    unfold TIFFWarningHandler_
    simp only
    rw [← e1, ← e2] at hor
    rw [if_neg]
    rintro ⟨h1, h2⟩
    rcases hor with h | h
    · rw [h1] at h; cases h
    · rw [h2] at h; cases h

/-- Witness for C15 as amended: a short text with the second pattern raises no warning. -/
theorem warning_filter_witness :
    (("Unknown field with tag".toList <:+:
          (vsnprintf_txtbuf "Defining non-color channels as ExtraSamples.").toList ∨
        "Defining non-color channels as ExtraSamples.".toList <:+:
          (vsnprintf_txtbuf "Defining non-color channels as ExtraSamples.").toList) ∧
      ("Defining non-color channels as ExtraSamples." : String).length ≤ 2047) ∧
    ((TIFFWarningHandler_ "TIFFReadDirectory" "Defining non-color channels as ExtraSamples."
        = some ("TIFFReadDirectory" ++ ": " ++
            vsnprintf_txtbuf "Defining non-color channels as ExtraSamples.") ↔
      ¬ ("Unknown field with tag".toList <:+:
          (vsnprintf_txtbuf "Defining non-color channels as ExtraSamples.").toList) ∧
      ¬ ("Defining non-color channels as ExtraSamples.".toList <:+:
          (vsnprintf_txtbuf "Defining non-color channels as ExtraSamples.").toList)) ∧
    (("Unknown field with tag".toList <:+:
          (vsnprintf_txtbuf "Defining non-color channels as ExtraSamples.").toList ∨
        "Defining non-color channels as ExtraSamples.".toList <:+:
          (vsnprintf_txtbuf "Defining non-color channels as ExtraSamples.").toList) →
      TIFFWarningHandler_ "TIFFReadDirectory" "Defining non-color channels as ExtraSamples."
        = none) ∧
    (("Defining non-color channels as ExtraSamples." : String).length ≤ 2047 →
      vsnprintf_txtbuf "Defining non-color channels as ExtraSamples."
        = "Defining non-color channels as ExtraSamples.")) :=
  ⟨⟨Or.inr (by decide), by decide⟩,
    warning_filter "TIFFReadDirectory" "Defining non-color channels as ExtraSamples."⟩

/-! ## `match_pillar_to_row_3` -/

theorem row_test_eq (arr3d : List Int) (mat : IntegerMatrix) (out_len i j : Nat)
    (hi : i + 2 * out_len < arr3d.length) (hj : j + 2 * mat.nrow < mat.data.length) :
    and_then (elem_eq arr3d[i]? (mat.elem j 0))
        (and_then (elem_eq arr3d[i + out_len]? (mat.elem j 1))
          (elem_eq arr3d[i + 2 * out_len]? (mat.elem j 2)))
      = some (decide (row_matches arr3d mat out_len i j)) := by
  obtain ⟨a0, ha0⟩ : ∃ a, arr3d[i]? = some a := ⟨_, List.getElem?_eq_getElem (by omega)⟩
  obtain ⟨a1, ha1⟩ : ∃ a, arr3d[i + out_len]? = some a :=
    ⟨_, List.getElem?_eq_getElem (by omega)⟩
  obtain ⟨a2, ha2⟩ : ∃ a, arr3d[i + 2 * out_len]? = some a :=
    ⟨_, List.getElem?_eq_getElem (by omega)⟩
  obtain ⟨m0, hm0⟩ : ∃ m, mat.elem j 0 = some m :=
    ⟨_, List.getElem?_eq_getElem (by omega)⟩
  obtain ⟨m1, hm1⟩ : ∃ m, mat.elem j 1 = some m :=
    ⟨_, List.getElem?_eq_getElem (by omega)⟩
  obtain ⟨m2, hm2⟩ : ∃ m, mat.elem j 2 = some m :=
    ⟨_, List.getElem?_eq_getElem (by omega)⟩
  simp only [row_matches, ha0, ha1, ha2, hm0, hm1, hm2, elem_eq, Option.some.injEq]
  have e0 : (a0 == m0) = decide (a0 = m0) := by by_cases h : a0 = m0 <;> simp [h]
  have e1 : (a1 == m1) = decide (a1 = m1) := by by_cases h : a1 = m1 <;> simp [h]
  have e2 : (a2 == m2) = decide (a2 = m2) := by by_cases h : a2 = m2 <;> simp [h]
  rw [e0, e1, e2]
  by_cases h0 : a0 = m0 <;> by_cases h1 : a1 = m1 <;> by_cases h2 : a2 = m2 <;>
    simp [and_then, h0, h1, h2]

theorem find_row_spec (arr3d : List Int) (mat : IntegerMatrix) (out_len i : Nat)
    (hi : i + 2 * out_len < arr3d.length) (hm : 3 * mat.nrow ≤ mat.data.length) :
    ∀ remaining j, j + remaining = mat.nrow →
      (∃ j0, find_row arr3d mat out_len i remaining j = some (some j0) ∧ j ≤ j0 ∧
          j0 < mat.nrow ∧ row_matches arr3d mat out_len i j0 ∧
          ∀ j', j ≤ j' → j' < j0 → ¬ row_matches arr3d mat out_len i j') ∨
        (find_row arr3d mat out_len i remaining j = some none ∧
          ∀ j', j ≤ j' → j' < mat.nrow → ¬ row_matches arr3d mat out_len i j') := by
  intro remaining
  induction remaining with
  | zero =>
    intro j hj
    right
    exact ⟨rfl, fun j' h1 h2 => by omega⟩
  | succ n ih =>
    intro j hj
    rw [find_row, row_test_eq arr3d mat out_len i j hi (by omega)]
    by_cases hmatch : row_matches arr3d mat out_len i j
    · left
      refine ⟨j, by simp [hmatch], le_refl _, by omega, hmatch, fun j' h1 h2 => by omega⟩
    · simp only [hmatch, decide_False]
      rcases ih (j + 1) (by omega) with ⟨j0, h1, h2, h3, h4, h5⟩ | ⟨h1, h2⟩
      · left
        refine ⟨j0, h1, by omega, h3, h4, ?_⟩
        intro j' hj1 hj2
        rcases Nat.eq_or_lt_of_le hj1 with heq | hlt
        · rw [← heq]; exact hmatch
        · exact h5 j' hlt hj2
      · right
        refine ⟨h1, ?_⟩
        intro j' hj1 hj2
        rcases Nat.eq_or_lt_of_le hj1 with heq | hlt
        · rw [← heq]; exact hmatch
        · exact h2 j' hlt hj2

theorem fill_out_spec (arr3d : List Int) (mat : IntegerMatrix) (out_len : Nat)
    (ha : arr3d.length = out_len * 3) (hm : 3 * mat.nrow ≤ mat.data.length) :
    ∀ remaining i, i + remaining = out_len →
      ∃ out, fill_out arr3d mat out_len remaining i = some out ∧ out.length = remaining ∧
        ∀ t, t < remaining →
          (∃ j0 : Nat, out[t]? = some (j0 : Int) ∧ j0 < mat.nrow ∧
              row_matches arr3d mat out_len (i + t) j0 ∧
              ∀ j', j' < j0 → ¬ row_matches arr3d mat out_len (i + t) j') ∨
            (out[t]? = some NA_INTEGER ∧
              ∀ j', j' < mat.nrow → ¬ row_matches arr3d mat out_len (i + t) j') := by
  intro remaining
  induction remaining with
  | zero => intro i _; exact ⟨[], rfl, rfl, fun t ht => by omega⟩
  | succ n ih =>
    intro i hi
    obtain ⟨rest, hrest, hlen, hall⟩ := ih (i + 1) (by omega)
    have hfirst := find_row_spec arr3d mat out_len i (by omega) hm mat.nrow 0 (by omega)
    rw [fill_out, hrest]
    rcases hfirst with ⟨j0, h1, _, h3, h4, h5⟩ | ⟨h1, h2⟩
    · rw [h1]
      refine ⟨_, rfl, by simp [hlen], ?_⟩
      intro t ht
      cases t with
      | zero =>
        left
        exact ⟨j0, by simp, h3, h4, fun j' hj => h5 j' (Nat.zero_le _) hj⟩
      | succ t =>
        have := hall t (by omega)
        simp only [List.getElem?_cons_succ]
        rw [show i + (t + 1) = i + 1 + t by omega]
        exact this
    · rw [h1]
      refine ⟨_, rfl, by simp [hlen], ?_⟩
      intro t ht
      cases t with
      | zero =>
        right
        exact ⟨by simp, fun j' hj => h2 j' (Nat.zero_le _) hj⟩
      | succ t =>
        have := hall t (by omega)
        simp only [List.getElem?_cons_succ]
        rw [show i + (t + 1) = i + 1 + t by omega]
        exact this

/-- C20: for an integer array of dimensions `d0 x d1 x 3` and an integer matrix with at least
three columns, `match_pillar_to_row_3` returns a `d0 x d1` matrix whose entry `i`
(`0 ≤ i < d0 * d1`) is the smallest 0-based row index `j` with `mat(j, 0) = arr[i]`,
`mat(j, 1) = arr[i + d0 * d1]` and `mat(j, 2) = arr[i + 2 * d0 * d1]`, and is `NA_INTEGER`
exactly when no row of the matrix matches. -/
theorem match_pillar_first_match (arr3d : IntegerVector) (mat : IntegerMatrix) (d0 d1 : Nat)
    (hdim : arr3d.dim = [d0, d1, 3]) (hdata : arr3d.data.length = d0 * d1 * 3)
    (hsize : d0 * d1 ≤ 2147483647) (hcol : 3 ≤ mat.ncol)
    (hmat : mat.data.length = mat.nrow * mat.ncol) :
    ∃ out, match_pillar_to_row_3 arr3d mat = some out ∧ out.nrow = d0 ∧ out.ncol = d1 ∧
      out.data.length = d0 * d1 ∧
      ∀ i, i < d0 * d1 →
        ((∃ j : Nat, out.data[i]? = some (j : Int) ∧ j < mat.nrow ∧
              row_matches arr3d.data mat (d0 * d1) i j ∧
              ∀ j', j' < j → ¬ row_matches arr3d.data mat (d0 * d1) i j') ∨
          (out.data[i]? = some NA_INTEGER ∧
            ∀ j', j' < mat.nrow → ¬ row_matches arr3d.data mat (d0 * d1) i j')) ∧
        (out.data[i]? = some NA_INTEGER ↔
          ∀ j', j' < mat.nrow → ¬ row_matches arr3d.data mat (d0 * d1) i j') := by
  have hm : 3 * mat.nrow ≤ mat.data.length := by
    rw [hmat, Nat.mul_comm 3]
    exact Nat.mul_le_mul_left _ hcol
  obtain ⟨out, hout, hlen, hall⟩ := fill_out_spec arr3d.data mat (d0 * d1) hdata hm (d0 * d1) 0
    (by omega)
  refine ⟨⟨d0, d1, out⟩, ?_, rfl, rfl, hlen, ?_⟩
  · unfold match_pillar_to_row_3
    simp only [hdim, List.getElem?_cons_zero, List.getElem?_cons_succ,
      show ¬ (d0 * d1 > 2147483647) by omega, if_false, hout]
  · intro i hi
    have h := hall i hi
    rw [Nat.zero_add] at h
    refine ⟨h, ?_⟩
    constructor
    · intro hna
      rcases h with ⟨j, hj, _⟩ | ⟨_, h2⟩
      · rw [hj] at hna
        simp only [Option.some.injEq, NA_INTEGER] at hna
        omega
      · exact h2
    · intro hno
      rcases h with ⟨j, _, hj1, hj2, _⟩ | ⟨h1, _⟩
      · exact absurd hj2 (hno j hj1)
      · exact h1

/-- Witness for C20: two pillars against three rows; the first pillar matches rows 1 and 2,
the second matches none. -/
theorem match_pillar_first_match_witness :
    (sample_arr.dim = [2, 1, 3] ∧ sample_arr.data.length = 2 * 1 * 3 ∧
      sample_mat.data.length = sample_mat.nrow * sample_mat.ncol ∧
      (match_pillar_to_row_3 sample_arr sample_mat).map (fun m => m.data)
        = some [1, NA_INTEGER]) ∧
    ∃ out, match_pillar_to_row_3 sample_arr sample_mat = some out ∧ out.nrow = 2 ∧
      out.ncol = 1 ∧ out.data.length = 2 * 1 ∧
      ∀ i, i < 2 * 1 →
        ((∃ j : Nat, out.data[i]? = some (j : Int) ∧ j < sample_mat.nrow ∧
              row_matches sample_arr.data sample_mat (2 * 1) i j ∧
              ∀ j', j' < j → ¬ row_matches sample_arr.data sample_mat (2 * 1) i j') ∨
          (out.data[i]? = some NA_INTEGER ∧
            ∀ j', j' < sample_mat.nrow → ¬ row_matches sample_arr.data sample_mat (2 * 1) i j')) ∧
        (out.data[i]? = some NA_INTEGER ↔
          ∀ j', j' < sample_mat.nrow → ¬ row_matches sample_arr.data sample_mat (2 * 1) i j') :=
  ⟨⟨rfl, by decide, by decide, by decide⟩,
    match_pillar_first_match sample_arr sample_mat 2 1 rfl (by decide) (by decide) (by decide)
      (by decide)⟩

end Ijtiff
